import Mathlib

/-!
# AP_RPM: the multi-instance RPM manager

A shallow embedding of `libraries/AP_RPM/AP_RPM.cpp`.

* C arrays `T a[RPM_MAX_INSTANCES]` are maps from an index to a cell; the declared
  bound `RPM_MAX_INSTANCES` is a build parameter. The loops of `init` and
  `arming_checks` run over the indices below that bound.
* `float` values are only copied, compared with `<` and overwritten with the literal
  `0` by the manager, so they are modelled by `FloatVal`: exact rationals for the
  finite values, the two infinities and NaN.
* Compile-time switches (`CONFIG_HAL_BOARD == HAL_BOARD_SITL`, `HAL_EFI_ENABLED`) are
  fields of `Build`.
* Calls into the hardware abstraction (`hal.util->snprintf`, `hal.gpio->valid_pin`)
  are recorded in a call log.
* The enumerators of the type selector are declared in `AP_RPM.h`; their values are the
  ones documented by the `@Values` line of the `_TYPE` parameter. `RPM_TYPE_SITL` is
  not documented there and is a field of `Build`.
* `uint8_t` indices are natural numbers; the only 8-bit store, `num_instances = i+1`,
  is taken modulo 256.
-/

namespace RPM

/-! ## Values -/

/-- Value of a C++ `float`, as far as the manager observes it. -/
inductive FloatVal where
  | finite (q : ℚ)
  | posInf
  | negInf
  | nan
deriving DecidableEq

namespace FloatVal

/-- The literal `0`. -/
def zero : FloatVal := finite 0

/-- The C++ comparison `a < b` on floats: false whenever an operand is NaN. -/
def lt : FloatVal → FloatVal → Bool
  | finite a, finite b => decide (a < b)
  | finite _, posInf => true
  | negInf, finite _ => true
  | negInf, posInf => true
  | _, _ => false

end FloatVal

/-! ## Build configuration and the type selector -/

/-- Compile-time configuration of the library. `RPM_MAX_INSTANCES` and the value of
the enumerator `RPM_TYPE_SITL` are declared in `AP_RPM.h`; the two booleans are the
preprocessor conditions used in `AP_RPM::init`. The loop counters are `uint8_t`, so
the code is meaningful for `RPM_MAX_INSTANCES ≤ 255` only. -/
structure Build where
  RPM_MAX_INSTANCES : Nat
  HAL_BOARD_SITL : Bool
  HAL_EFI_ENABLED : Bool
  RPM_TYPE_SITL : Int

/-- Enumerator `RPM_TYPE_NONE` (`@Values: 0:None`). -/
def RPM_TYPE_NONE : Int := 0
/-- Enumerator `RPM_TYPE_PWM` (`@Values: 1:PWM`). -/
def RPM_TYPE_PWM : Int := 1
/-- Enumerator `RPM_TYPE_PIN` (`@Values: 2:AUXPIN`). -/
def RPM_TYPE_PIN : Int := 2
/-- Enumerator `RPM_TYPE_EFI` (`@Values: 3:EFI`). -/
def RPM_TYPE_EFI : Int := 3
/-- Enumerator `RPM_TYPE_HNTCH` (`@Values: 4:Harmonic Notch`). -/
def RPM_TYPE_HNTCH : Int := 4
/-- Enumerator `RPM_TYPE_ESC_TELEM` (`@Values: 5:ESC Telemetry Motors Bitmask`). -/
def RPM_TYPE_ESC_TELEM : Int := 5

/-- The enumerator `RPM_TYPE_SITL` differs from the six documented ones (the labels of
one `switch` are pairwise distinct). -/
def Build.sitl_type_distinct (b : Build) : Prop :=
  b.RPM_TYPE_SITL ≠ RPM_TYPE_NONE ∧ b.RPM_TYPE_SITL ≠ RPM_TYPE_PWM ∧
  b.RPM_TYPE_SITL ≠ RPM_TYPE_PIN ∧ b.RPM_TYPE_SITL ≠ RPM_TYPE_EFI ∧
  b.RPM_TYPE_SITL ≠ RPM_TYPE_HNTCH ∧ b.RPM_TYPE_SITL ≠ RPM_TYPE_ESC_TELEM

instance (b : Build) : Decidable b.sitl_type_distinct := by
  unfold Build.sitl_type_distinct; infer_instance

/-! ## Data model -/

/-- Record `RPM_State`: the fields the manager reads or writes. -/
structure RPM_State where
  rate_rpm : FloatVal
  signal_quality : FloatVal
deriving DecidableEq

/-- The concrete backend classes. -/
inductive BackendKind where
  | AP_RPM_Pin
  | AP_RPM_ESC_Telem
  | AP_RPM_EFI
  | AP_RPM_HarmonicNotch
  | AP_RPM_SITL
deriving DecidableEq

/-- A backend object as built by `new AP_RPM_X(*this, i, state[i])`: its class, the
instance index it was given and the index of the state cell its reference is bound to. -/
structure Backend where
  kind : BackendKind
  inst : Nat
  state_slot : Nat
deriving DecidableEq

/-- The `AP_Param` members of the manager (the configuration set). -/
structure Params where
  _type : Nat → Int
  _scaling : Nat → FloatVal
  _maximum : Nat → FloatVal
  _minimum : Nat → FloatVal
  _quality_min : Nat → FloatVal
  _pin : Nat → Int
  _esc_mask : Nat → Int

/-- The manager object: parameters, `state[]`, `drivers[]` (`none` is `nullptr`)
and `num_instances`. -/
structure AP_RPM extends Params where
  state : Nat → RPM_State
  drivers : Nat → Option Backend
  num_instances : Nat

/-- Array store `a[i] = v`. -/
def store {α : Type} (a : Nat → α) (i : Nat) (v : α) : Nat → α :=
  fun j => if j = i then v else a j

/-- A freshly constructed manager: no backend, `num_instances == 0`. -/
def AP_RPM.fresh (m : AP_RPM) : Prop :=
  m.num_instances = 0 ∧ ∀ j, m.drivers j = none

/-! ## `AP_RPM::init` -/

/-- The `switch (_type[i])` of `init`: the backend constructed for slot `i`, or `none`
when no case label of this build matches. A `new` expression yields an object. -/
def init_switch (b : Build) (t : Int) (i : Nat) : Option Backend :=
  if b.HAL_BOARD_SITL = false ∧ (t = RPM_TYPE_PWM ∨ t = RPM_TYPE_PIN) then
    some { kind := .AP_RPM_Pin, inst := i, state_slot := i }
  else if t = RPM_TYPE_ESC_TELEM then
    some { kind := .AP_RPM_ESC_Telem, inst := i, state_slot := i }
  else if b.HAL_EFI_ENABLED = true ∧ t = RPM_TYPE_EFI then
    some { kind := .AP_RPM_EFI, inst := i, state_slot := i }
  else if t = RPM_TYPE_HNTCH then
    some { kind := .AP_RPM_HarmonicNotch, inst := i, state_slot := i }
  else if b.HAL_BOARD_SITL = true ∧ t = b.RPM_TYPE_SITL then
    some { kind := .AP_RPM_SITL, inst := i, state_slot := i }
  else
    none

/-- One iteration of the loop of `init`, for slot `i`. -/
def init_step (b : Build) (m : AP_RPM) (i : Nat) : AP_RPM :=
  let m1 : AP_RPM :=
    match init_switch b (m._type i) i with
    | some d => { m with drivers := store m.drivers i (some d) }
    | none => m
  if m1.drivers i ≠ none then
    { m1 with num_instances := (i + 1) % 256 }
  else
    m1

/-- The loop `for (i = 0; i < RPM_MAX_INSTANCES; i++)` of `init`, with `k` iterations
left and the counter at `i`. -/
def init_loop (b : Build) : Nat → Nat → AP_RPM → AP_RPM
  | 0, _, m => m
  | k + 1, i, m => init_loop b k (i + 1) (init_step b m i)

/-- `void AP_RPM::init(void)`. -/
def AP_RPM.init (b : Build) (m : AP_RPM) : AP_RPM :=
  if m.num_instances ≠ 0 then
    m
  else
    init_loop b b.RPM_MAX_INSTANCES 0 m

/-! ## `AP_RPM::update` -/

/-- Modelled from the spec: the backend classes are external to the manager; the call
`drivers[i]->update()` is an abstract refresh that, from the backend object and the
manager, produces the new content of the state cell the backend is bound to. -/
def backend_update (refresh : Backend → AP_RPM → RPM_State) (d : Backend) (m : AP_RPM) :
    AP_RPM :=
  { m with state := store m.state d.state_slot (refresh d m) }

/-- One iteration of the loop of `update`, for slot `i`. -/
def update_step (refresh : Backend → AP_RPM → RPM_State) (m : AP_RPM) (i : Nat) : AP_RPM :=
  match m.drivers i with
  | some d =>
    if m._type i = RPM_TYPE_NONE then
      { m with state := store m.state i { m.state i with signal_quality := FloatVal.zero } }
    else
      backend_update refresh d m
  | none => m

/-- The loop `for (i = 0; i < num_instances; i++)` of `update`, with `k` iterations left
and the counter at `i`. -/
def update_loop (refresh : Backend → AP_RPM → RPM_State) : Nat → Nat → AP_RPM → AP_RPM
  | 0, _, m => m
  | k + 1, i, m => update_loop refresh k (i + 1) (update_step refresh m i)

/-- `void AP_RPM::update(void)`. -/
def AP_RPM.update (refresh : Backend → AP_RPM → RPM_State) (m : AP_RPM) : AP_RPM :=
  update_loop refresh m.num_instances 0 m

/-! ## Queries -/

/-- `bool AP_RPM::healthy(uint8_t instance) const`. -/
def AP_RPM.healthy (m : AP_RPM) (i : Nat) : Bool :=
  if i ≥ m.num_instances ∨ m._type i = RPM_TYPE_NONE then
    false
  else if FloatVal.lt (m.state i).signal_quality (m._quality_min 0) then
    false
  else
    true

/-- `bool AP_RPM::enabled(uint8_t instance) const`. -/
def AP_RPM.enabled (m : AP_RPM) (i : Nat) : Bool :=
  if i ≥ m.num_instances then
    false
  else if m._type i = RPM_TYPE_NONE then
    false
  else
    true

/-- `bool AP_RPM::get_rpm(uint8_t instance, float &rpm_value) const`: the returned flag
and the content of `rpm_value` after the call. -/
def AP_RPM.get_rpm (m : AP_RPM) (i : Nat) (rpm_value : FloatVal) : Bool × FloatVal :=
  if ¬ m.healthy i then
    (false, rpm_value)
  else
    (true, (m.state i).rate_rpm)

/-! ## `AP_RPM::arming_checks` -/

/-- One call `hal.util->snprintf(buffer, buflen, fmt, args...)`. -/
structure SnprintfCall where
  buflen : Nat
  fmt : String
  args : List Int
deriving DecidableEq

/-- Outcome of `arming_checks`: the returned flag, the writes to the caller's buffer
and the pins passed to `hal.gpio->valid_pin`, both in call order. -/
structure ArmingResult where
  ret : Bool
  buffer_writes : List SnprintfCall
  valid_pin_calls : List Int
deriving DecidableEq

/-- The loop of `arming_checks`, with `k` iterations left, the counter at `i` and the
pins checked so far in `consulted`. -/
def arming_checks_loop (valid_pin : Int → Bool) (m : AP_RPM) (buflen : Nat) :
    Nat → Nat → List Int → ArmingResult
  | 0, _, consulted => { ret := true, buffer_writes := [], valid_pin_calls := consulted }
  | k + 1, i, consulted =>
    if m._type i = RPM_TYPE_PWM ∨ m._type i = RPM_TYPE_PIN then
      if m._pin i = -1 then
        { ret := false,
          buffer_writes := [{ buflen := buflen, fmt := "RPM[%u] no pin set",
                              args := [(i : Int) + 1] }],
          valid_pin_calls := consulted }
      else if ¬ valid_pin (m._pin i) then
        { ret := false,
          buffer_writes := [{ buflen := buflen, fmt := "RPM[%u] pin %d invalid",
                              args := [(i : Int) + 1, m._pin i] }],
          valid_pin_calls := consulted ++ [m._pin i] }
      else
        arming_checks_loop valid_pin m buflen k (i + 1) (consulted ++ [m._pin i])
    else
      arming_checks_loop valid_pin m buflen k (i + 1) consulted

/-- `bool AP_RPM::arming_checks(size_t buflen, char *buffer) const`. -/
def AP_RPM.arming_checks (b : Build) (valid_pin : Int → Bool) (m : AP_RPM) (buflen : Nat) :
    ArmingResult :=
  arming_checks_loop valid_pin m buflen b.RPM_MAX_INSTANCES 0 []

/-! ## Run-time parameter changes and derived quantities -/

/-- Modelled from the spec: the parameter subsystem is external to the manager and may
overwrite the `AP_Param` members between two calls; nothing else of the manager
changes. -/
def AP_RPM.set_params (m : AP_RPM) (p : Params) : AP_RPM :=
  { m with toParams := p }

/-- Modelled from the spec: between two calls of the manager the state array holds
whatever the backends wrote in earlier cycles; this replaces its content and nothing
else. -/
def AP_RPM.set_state (m : AP_RPM) (st : Nat → RPM_State) : AP_RPM :=
  { m with state := st }

/-- Number of slots below `RPM_MAX_INSTANCES` that hold a backend. -/
def backend_count (b : Build) (m : AP_RPM) : Nat :=
  ((List.range b.RPM_MAX_INSTANCES).filter (fun j => (m.drivers j).isSome)).length

/-! ## Sample data -/

/-- A zeroed state record. -/
def RPM_State.zeroed : RPM_State :=
  { rate_rpm := FloatVal.zero, signal_quality := FloatVal.zero }

/-- A two-slot hardware build without EFI support. -/
def board2 : Build :=
  { RPM_MAX_INSTANCES := 2, HAL_BOARD_SITL := false, HAL_EFI_ENABLED := false,
    RPM_TYPE_SITL := 10 }

/-- Parameters with the given type and pin arrays and the defaults of `var_info`
elsewhere. -/
def params_of (ty pin : Nat → Int) : Params :=
  { _type := ty, _scaling := fun _ => FloatVal.finite 1,
    _maximum := fun _ => FloatVal.finite 100000, _minimum := fun _ => FloatVal.finite 10,
    _quality_min := fun _ => FloatVal.finite (1 / 2), _pin := pin, _esc_mask := fun _ => 0 }

/-- Parameters as `params_of`, with the quality floor `_quality_min` set to `q`. -/
def params_with_floor (ty pin : Nat → Int) (q : FloatVal) : Params :=
  { params_of ty pin with _quality_min := fun _ => q }

/-- A manager without backends, with zeroed state and the given parameters. -/
def manager_of (p : Params) : AP_RPM :=
  { toParams := p, state := fun _ => RPM_State.zeroed, drivers := fun _ => none,
    num_instances := 0 }

/-! ## Construction and the process-wide accessor -/

/-- Modelled from the spec: `AP_Param::setup_object_defaults(this, var_info)` belongs to
the parameter subsystem; it stores the default of every entry of `var_info` in the
member that entry names. The entries of the second instance exist when
`RPM_MAX_INSTANCES > 1`. -/
def setup_object_defaults (b : Build) (m : AP_RPM) : AP_RPM :=
  let m1 : AP_RPM :=
    { m with
      _type := store m._type 0 0
      _scaling := store m._scaling 0 (FloatVal.finite 1)
      _maximum := store m._maximum 0 (FloatVal.finite 100000)
      _minimum := store m._minimum 0 (FloatVal.finite 10)
      _quality_min := store m._quality_min 0 (FloatVal.finite (1 / 2))
      _pin := store m._pin 0 (-1)
      _esc_mask := store m._esc_mask 0 0 }
  if 1 < b.RPM_MAX_INSTANCES then
    { m1 with
      _type := store m1._type 1 0
      _scaling := store m1._scaling 1 (FloatVal.finite 1)
      _pin := store m1._pin 1 (-1)
      _esc_mask := store m1._esc_mask 1 0 }
  else
    m1

/-- The static member `AP_RPM *AP_RPM::_singleton;` at program start: a pointer with
static storage and no initialiser is null. Pointers to manager objects are addresses. -/
def singleton_at_start : Option Nat := none

/-- Outcome of running the constructor: the message of `AP_HAL::panic` when it was
reached (the process halts there), the object and the content of `_singleton`. -/
structure Constructed where
  fatal : Option String
  object : AP_RPM
  _singleton : Option Nat

/-- `AP_RPM::AP_RPM(void)` run for the object at address `this`, whose memory holds
`mem`, with the static pointer holding `cell`. -/
def AP_RPM.construct (b : Build) (this : Nat) (mem : AP_RPM) (cell : Option Nat) :
    Constructed :=
  let m := setup_object_defaults b mem
  if cell ≠ none then
    { fatal := some "AP_RPM must be singleton", object := m, _singleton := cell }
  else
    { fatal := none, object := m, _singleton := some this }

/-- Modelled from the spec: `AP_RPM::get_singleton()` is declared in `AP_RPM.h`; it
returns the recorded singleton, or the absent indicator. -/
def get_singleton (cell : Option Nat) : Option Nat := cell

/-- `AP_RPM *AP::rpm()`. -/
def AP.rpm (cell : Option Nat) : Option Nat := get_singleton cell

/-! ## `update` with its backend calls -/

/-- One call `drivers[i]->update()`: the slot and the backend object invoked. -/
structure BackendCall where
  slot : Nat
  backend : Backend
deriving DecidableEq

/-- One iteration of the loop of `update` for slot `i`, which also appends the backend
call it makes, if any, to the call log. -/
def update_step_traced (refresh : Backend → AP_RPM → RPM_State)
    (s : AP_RPM × List BackendCall) (i : Nat) : AP_RPM × List BackendCall :=
  match s.1.drivers i with
  | some d =>
    if s.1._type i = RPM_TYPE_NONE then
      ({ s.1 with
          state := store s.1.state i
            { s.1.state i with signal_quality := FloatVal.zero } }, s.2)
    else
      (backend_update refresh d s.1, s.2 ++ [{ slot := i, backend := d }])
  | none => s

/-- The loop of `update` with the call log. -/
def update_loop_traced (refresh : Backend → AP_RPM → RPM_State) :
    Nat → Nat → AP_RPM × List BackendCall → AP_RPM × List BackendCall
  | 0, _, s => s
  | k + 1, i, s => update_loop_traced refresh k (i + 1) (update_step_traced refresh s i)

/-- `void AP_RPM::update(void)` with the log of the backend calls it makes. -/
def AP_RPM.update_traced (refresh : Backend → AP_RPM → RPM_State) (m : AP_RPM) :
    AP_RPM × List BackendCall :=
  update_loop_traced refresh m.num_instances 0 (m, [])

/-- The backend call the loop of `update` makes for slot `j`, if any. -/
def update_call (m : AP_RPM) (j : Nat) : Option BackendCall :=
  match m.drivers j with
  | some d => if m._type j = RPM_TYPE_NONE then none else some { slot := j, backend := d }
  | none => none

/-! ## Sequences of operations -/

/-- The operations of the manager's interface, and a run-time change of the parameters. -/
inductive Op where
  | init
  | update (refresh : Backend → AP_RPM → RPM_State)
  | enabled (i : Nat)
  | healthy (i : Nat)
  | get_rpm (i : Nat) (rpm_value : FloatVal)
  | arming_checks (valid_pin : Int → Bool) (buflen : Nat)
  | set_params (p : Params)

/-- Effect of one operation on the manager object; the queries are `const` member
functions and leave it as it is. -/
def AP_RPM.step (b : Build) (m : AP_RPM) : Op → AP_RPM
  | .init => m.init b
  | .update refresh => m.update refresh
  | .enabled _ => m
  | .healthy _ => m
  | .get_rpm _ _ => m
  | .arming_checks _ _ => m
  | .set_params p => m.set_params p

/-- Effect of a sequence of operations. -/
def AP_RPM.run (b : Build) (m : AP_RPM) (ops : List Op) : AP_RPM :=
  ops.foldl (AP_RPM.step b) m

/-- One iteration of the loop of `init` for slot `i`, which also appends `i` to the log
of constructions when a `new` expression is evaluated. -/
def init_step_traced (b : Build) (s : AP_RPM × List Nat) (i : Nat) : AP_RPM × List Nat :=
  let s1 : AP_RPM × List Nat :=
    match init_switch b (s.1._type i) i with
    | some d => ({ s.1 with drivers := store s.1.drivers i (some d) }, s.2 ++ [i])
    | none => s
  if s1.1.drivers i ≠ none then
    ({ s1.1 with num_instances := (i + 1) % 256 }, s1.2)
  else
    s1

/-- The loop of `init` with the log of constructions. -/
def init_loop_traced (b : Build) : Nat → Nat → AP_RPM × List Nat → AP_RPM × List Nat
  | 0, _, s => s
  | k + 1, i, s => init_loop_traced b k (i + 1) (init_step_traced b s i)

/-- `void AP_RPM::init(void)` with the slots for which it constructs a backend. -/
def AP_RPM.init_traced (b : Build) (m : AP_RPM) : AP_RPM × List Nat :=
  if m.num_instances ≠ 0 then
    (m, [])
  else
    init_loop_traced b b.RPM_MAX_INSTANCES 0 (m, [])

/-- The slots for which one operation constructs a backend. -/
def AP_RPM.step_constructs (b : Build) (m : AP_RPM) : Op → List Nat
  | .init => (m.init_traced b).2
  | _ => []

/-- The slots for which a sequence of operations constructs a backend, one entry per
construction. -/
def AP_RPM.run_constructs (b : Build) : AP_RPM → List Op → List Nat
  | _, [] => []
  | m, op :: ops => m.step_constructs b op ++ AP_RPM.run_constructs b (m.step b op) ops

/-- The invariant of the manager object: the high-water mark is within the array bound,
no slot at or above it holds a backend, the slot just below it holds one, and every
backend carries the index and the state cell of its own slot. -/
def AP_RPM.inv (b : Build) (m : AP_RPM) : Prop :=
  m.num_instances ≤ b.RPM_MAX_INSTANCES ∧
  (∀ j, m.num_instances ≤ j → m.drivers j = none) ∧
  (0 < m.num_instances → m.drivers (m.num_instances - 1) ≠ none) ∧
  (∀ j d, m.drivers j = some d → d.state_slot = j ∧ d.inst = j)

/-! ## Array accesses with a range check -/

/-- Read of `a[i]` in an array declared with `n` cells: `none` when `i` is out of
range. -/
def read {α : Type} (n : Nat) (a : Nat → α) (i : Nat) : Option α :=
  if i < n then some (a i) else none

/-- `AP_RPM::enabled` with every array access checked. -/
def AP_RPM.enabled_checked (b : Build) (m : AP_RPM) (i : Nat) : Option Bool :=
  if i ≥ m.num_instances then
    some false
  else do
    let t ← read b.RPM_MAX_INSTANCES m._type i
    if t = RPM_TYPE_NONE then some false else some true

/-- `AP_RPM::healthy` with every array access checked. -/
def AP_RPM.healthy_checked (b : Build) (m : AP_RPM) (i : Nat) : Option Bool :=
  if i ≥ m.num_instances then
    some false
  else do
    let t ← read b.RPM_MAX_INSTANCES m._type i
    if t = RPM_TYPE_NONE then
      some false
    else do
      let st ← read b.RPM_MAX_INSTANCES m.state i
      let q ← read b.RPM_MAX_INSTANCES m._quality_min 0
      if FloatVal.lt st.signal_quality q then some false else some true

/-- `AP_RPM::get_rpm` with every array access checked. -/
def AP_RPM.get_rpm_checked (b : Build) (m : AP_RPM) (i : Nat) (rpm_value : FloatVal) :
    Option (Bool × FloatVal) := do
  let h ← m.healthy_checked b i
  if ¬ h then
    some (false, rpm_value)
  else do
    let st ← read b.RPM_MAX_INSTANCES m.state i
    some (true, st.rate_rpm)

/-- One iteration of the loop of `update` with every array access checked. The backend
writes through the reference it was given at construction, not through an index. -/
def update_step_checked (b : Build) (refresh : Backend → AP_RPM → RPM_State) (m : AP_RPM)
    (i : Nat) : Option AP_RPM := do
  let drv ← read b.RPM_MAX_INSTANCES m.drivers i
  match drv with
  | some d => do
    let t ← read b.RPM_MAX_INSTANCES m._type i
    if t = RPM_TYPE_NONE then do
      let st ← read b.RPM_MAX_INSTANCES m.state i
      some { m with state := store m.state i { st with signal_quality := FloatVal.zero } }
    else
      some (backend_update refresh d m)
  | none => some m

/-- The loop of `update` with every array access checked. -/
def update_loop_checked (b : Build) (refresh : Backend → AP_RPM → RPM_State) :
    Nat → Nat → AP_RPM → Option AP_RPM
  | 0, _, m => some m
  | k + 1, i, m =>
    (update_step_checked b refresh m i).bind (update_loop_checked b refresh k (i + 1))

/-- `AP_RPM::update` with every array access checked. -/
def AP_RPM.update_checked (b : Build) (refresh : Backend → AP_RPM → RPM_State)
    (m : AP_RPM) : Option AP_RPM :=
  update_loop_checked b refresh m.num_instances 0 m

/-! ## Basic facts -/

theorem FloatVal.lt_irrefl (x : FloatVal) : FloatVal.lt x x = false := by
  cases x <;> simp [FloatVal.lt]

/-! ## Queries: `get_rpm`, `healthy`, `enabled` -/

/-- C1: for every manager state, index and prior content `v` of the output parameter,
`get_rpm` returns true and stores `state[i].rate_rpm` when `healthy(i)`, and returns
false leaving `v` in place otherwise; its flag is exactly `healthy(i)`, so there is no
third outcome. -/
theorem get_rpm_contract (m : AP_RPM) (i : Nat) (v : FloatVal) :
    (m.healthy i = true → m.get_rpm i v = (true, (m.state i).rate_rpm)) ∧
    (m.healthy i = false → m.get_rpm i v = (false, v)) ∧
    (m.get_rpm i v).1 = m.healthy i := by
  unfold AP_RPM.get_rpm
  cases h : m.healthy i <;> simp

/-- C2: `healthy(i)` holds exactly when `enabled(i)` holds and `signal_quality` is not
below `_quality_min[0]`; an enabled instance whose quality equals the floor is healthy,
and a healthy instance is enabled. -/
theorem healthy_iff_enabled_and_quality (m : AP_RPM) (i : Nat) :
    (m.healthy i = true ↔
      m.enabled i = true ∧
        FloatVal.lt (m.state i).signal_quality (m._quality_min 0) = false) ∧
    (m.enabled i = true → (m.state i).signal_quality = m._quality_min 0 →
      m.healthy i = true) ∧
    (m.healthy i = true → m.enabled i = true) := by
  have key : m.healthy i = true ↔
      m.enabled i = true ∧
        FloatVal.lt (m.state i).signal_quality (m._quality_min 0) = false := by
    unfold AP_RPM.healthy AP_RPM.enabled
    by_cases h1 : i ≥ m.num_instances
    · simp [h1]
    · by_cases h2 : m._type i = RPM_TYPE_NONE
      · simp [h1, h2]
      · cases h3 : FloatVal.lt (m.state i).signal_quality (m._quality_min 0) <;>
          simp [h1, h2, h3]
  refine ⟨key, ?_, fun h => (key.mp h).1⟩
  intro he hq
  exact key.mpr ⟨he, by rw [hq]; exact FloatVal.lt_irrefl _⟩

/-- C3: `enabled(i)` holds exactly when `i` is below `num_instances` and the configured
type of slot `i` is not `RPM_TYPE_NONE`. -/
theorem enabled_iff (m : AP_RPM) (i : Nat) :
    m.enabled i = true ↔ i < m.num_instances ∧ m._type i ≠ RPM_TYPE_NONE := by
  unfold AP_RPM.enabled
  by_cases h1 : i ≥ m.num_instances
  · simp [h1]
  · by_cases h2 : m._type i = RPM_TYPE_NONE
    · simp [h1, h2]
    · simp [h1, h2]
      omega

/-- C4: for every manager state and every index `i` at or above `num_instances`
(whether or not below `RPM_MAX_INSTANCES`), `enabled(i)` and `healthy(i)` are false and
`get_rpm` returns false without changing its output parameter. -/
theorem queries_above_high_water_mark (m : AP_RPM) (i : Nat) (v : FloatVal)
    (h : m.num_instances ≤ i) :
    m.enabled i = false ∧ m.healthy i = false ∧ m.get_rpm i v = (false, v) := by
  have hh : m.healthy i = false := by
    unfold AP_RPM.healthy
    simp [h]
  refine ⟨?_, hh, ?_⟩
  · unfold AP_RPM.enabled
    simp [h]
  · unfold AP_RPM.get_rpm
    simp [hh]

/-- Witness for `queries_above_high_water_mark`: a manager with one instance of type
ESC telemetry in both slots, queried at index 200. -/
theorem queries_above_high_water_mark_witness :
    ({ manager_of (params_of (fun _ => 5) (fun _ => -1)) with num_instances := 1 } :
        AP_RPM).enabled 200 = false ∧
    ({ manager_of (params_of (fun _ => 5) (fun _ => -1)) with num_instances := 1 } :
        AP_RPM).healthy 200 = false ∧
    ({ manager_of (params_of (fun _ => 5) (fun _ => -1)) with num_instances := 1 } :
        AP_RPM).get_rpm 200 (FloatVal.finite 7) = (false, FloatVal.finite 7) :=
  queries_above_high_water_mark _ 200 (FloatVal.finite 7) (by decide)

/-! ## `init`: the loop -/

theorem init_step_toParams (b : Build) (m : AP_RPM) (i : Nat) :
    (init_step b m i).toParams = m.toParams := by
  unfold init_step
  cases h : init_switch b (m._type i) i <;> simp only [] <;> split <;> rfl

theorem init_step_state (b : Build) (m : AP_RPM) (i : Nat) :
    (init_step b m i).state = m.state := by
  unfold init_step
  cases h : init_switch b (m._type i) i <;> simp only [] <;> split <;> rfl

theorem init_step_drivers (b : Build) (m : AP_RPM) (i j : Nat) :
    (init_step b m i).drivers j =
      if j = i then (init_switch b (m._type i) i).or (m.drivers i) else m.drivers j := by
  unfold init_step
  cases h : init_switch b (m._type i) i <;> simp only [] <;> split <;>
    by_cases hj : j = i <;> simp [store, hj]

theorem init_step_num_instances (b : Build) (m : AP_RPM) (i : Nat) :
    (init_step b m i).num_instances =
      if (init_step b m i).drivers i ≠ none then (i + 1) % 256 else m.num_instances := by
  unfold init_step
  cases h : init_switch b (m._type i) i <;> simp only [] <;> split <;> simp_all [store]

theorem init_loop_toParams (b : Build) (k i : Nat) (m : AP_RPM) :
    (init_loop b k i m).toParams = m.toParams := by
  induction k generalizing i m with
  | zero => rfl
  | succ k ih => rw [init_loop, ih, init_step_toParams]

theorem init_loop_state (b : Build) (k i : Nat) (m : AP_RPM) :
    (init_loop b k i m).state = m.state := by
  induction k generalizing i m with
  | zero => rfl
  | succ k ih => rw [init_loop, ih, init_step_state]

/-- After the loop, a slot visited by it holds the backend its `switch` constructed, or
what it held before when no case matched; other slots are untouched. -/
theorem init_loop_drivers (b : Build) (k i : Nat) (m : AP_RPM) (j : Nat) :
    (init_loop b k i m).drivers j =
      if i ≤ j ∧ j < i + k then (init_switch b (m._type j) j).or (m.drivers j)
      else m.drivers j := by
  induction k generalizing i m with
  | zero =>
    have hr : ¬ (i ≤ j ∧ j < i + 0) := by omega
    rw [if_neg hr]
    rfl
  | succ k ih =>
    rw [init_loop, ih, init_step_drivers]
    have hp : (init_step b m i)._type = m._type := by
      have := init_step_toParams b m i
      exact congrArg Params._type this
    rw [hp]
    by_cases hji : j = i
    · subst hji
      have h1 : ¬ (j + 1 ≤ j ∧ j < j + 1 + k) := by omega
      have h2 : j ≤ j ∧ j < j + (k + 1) := by omega
      simp [h1, h2]
    · by_cases hr : i + 1 ≤ j ∧ j < i + 1 + k
      · have h2 : i ≤ j ∧ j < i + (k + 1) := by omega
        simp [hr, h2, hji]
      · have h2 : ¬ (i ≤ j ∧ j < i + (k + 1)) := by omega
        simp [hr, h2, hji]

/-- The high-water mark stays between its old value and the loop bound. -/
theorem init_loop_num_instances_bounds (b : Build) (k i : Nat) (m : AP_RPM)
    (hk : i + k ≤ 255) (hm : m.num_instances ≤ i) :
    m.num_instances ≤ (init_loop b k i m).num_instances ∧
      (init_loop b k i m).num_instances ≤ i + k := by
  induction k generalizing i m with
  | zero => simp [init_loop, hm]
  | succ k ih =>
    rw [init_loop]
    have hs := init_step_num_instances b m i
    have h1 : (init_step b m i).num_instances ≤ i + 1 ∧
        m.num_instances ≤ (init_step b m i).num_instances := by
      by_cases hd : (init_step b m i).drivers i ≠ none
      · rw [if_pos hd] at hs
        omega
      · rw [if_neg hd] at hs
        omega
    have := ih (i + 1) (init_step b m i) (by omega) h1.1
    omega

/-- No backend in the visited slots: the high-water mark is unchanged. -/
theorem init_loop_num_instances_of_none (b : Build) (k i : Nat) (m : AP_RPM)
    (hnone : ∀ j, i ≤ j → j < i + k → (init_loop b k i m).drivers j = none) :
    (init_loop b k i m).num_instances = m.num_instances := by
  induction k generalizing i m with
  | zero => rfl
  | succ k ih =>
    rw [init_loop] at hnone ⊢
    rw [ih (i + 1) (init_step b m i) (fun j h1 h2 => hnone j (by omega) (by omega))]
    have hi := hnone i (le_refl _) (by omega)
    rw [init_loop_drivers] at hi
    have h1 : ¬ (i + 1 ≤ i ∧ i < i + 1 + k) := by omega
    rw [if_neg h1] at hi
    rw [init_step_num_instances, hi]
    simp

/-- The highest visited slot holding a backend determines the high-water mark. -/
theorem init_loop_num_instances_of_highest (b : Build) (k i : Nat) (m : AP_RPM)
    (hk : i + k ≤ 255) (j0 : Nat) (h1 : i ≤ j0) (h2 : j0 < i + k)
    (hsome : (init_loop b k i m).drivers j0 ≠ none)
    (hnone : ∀ j, j0 < j → j < i + k → (init_loop b k i m).drivers j = none) :
    (init_loop b k i m).num_instances = j0 + 1 := by
  induction k generalizing i m with
  | zero => omega
  | succ k ih =>
    rw [init_loop] at hsome hnone ⊢
    by_cases hj : j0 = i
    · subst hj
      rw [init_loop_num_instances_of_none b k (j0 + 1) (init_step b m j0)
        (fun j h1 h2 => hnone j (by omega) (by omega))]
      rw [init_loop_drivers] at hsome
      have h3 : ¬ (j0 + 1 ≤ j0 ∧ j0 < j0 + 1 + k) := by omega
      rw [if_neg h3] at hsome
      rw [init_step_num_instances, if_pos hsome]
      omega
    · exact ih (i + 1) (init_step b m i) (by omega) (by omega) (by omega) hsome
        (fun j h1 h2 => hnone j h1 (by omega))

/-- A visited slot that holds a backend lies below the high-water mark. -/
theorem init_loop_lt_num_instances (b : Build) (k i : Nat) (m : AP_RPM)
    (hk : i + k ≤ 255) (hm : m.num_instances ≤ i) (j : Nat) (h1 : i ≤ j) (h2 : j < i + k)
    (hsome : (init_loop b k i m).drivers j ≠ none) :
    j < (init_loop b k i m).num_instances := by
  induction k generalizing i m with
  | zero => omega
  | succ k ih =>
    rw [init_loop] at hsome ⊢
    have hs := init_step_num_instances b m i
    by_cases hj : j = i
    · subst hj
      rw [init_loop_drivers] at hsome
      have h3 : ¬ (j + 1 ≤ j ∧ j < j + 1 + k) := by omega
      rw [if_neg h3] at hsome
      rw [if_pos hsome] at hs
      have := (init_loop_num_instances_bounds b k (j + 1) (init_step b m j) (by omega)
        (by omega)).1
      omega
    · have hle : (init_step b m i).num_instances ≤ i + 1 := by
        by_cases hd : (init_step b m i).drivers i ≠ none
        · rw [if_pos hd] at hs
          omega
        · rw [if_neg hd] at hs
          omega
      exact ih (i + 1) (init_step b m i) (by omega) hle (by omega) (by omega) hsome

/-! ## `init` on a freshly constructed manager -/

theorem AP_RPM.eq_of_fields (x y : AP_RPM) (h1 : x.toParams = y.toParams)
    (h2 : x.state = y.state) (h3 : x.drivers = y.drivers)
    (h4 : x.num_instances = y.num_instances) : x = y := by
  cases x
  cases y
  simp_all

theorem init_of_num_instances_zero (b : Build) (m : AP_RPM) (h : m.num_instances = 0) :
    m.init b = init_loop b b.RPM_MAX_INSTANCES 0 m := by
  unfold AP_RPM.init
  simp [h]

theorem init_toParams (b : Build) (m : AP_RPM) : (m.init b).toParams = m.toParams := by
  unfold AP_RPM.init
  split
  · rfl
  · exact init_loop_toParams b _ _ m

theorem init_fresh_drivers (b : Build) (m : AP_RPM) (hf : m.fresh) (j : Nat) :
    (m.init b).drivers j =
      if j < b.RPM_MAX_INSTANCES then init_switch b (m._type j) j else none := by
  rw [init_of_num_instances_zero b m hf.1, init_loop_drivers, hf.2 j]
  by_cases hj : j < b.RPM_MAX_INSTANCES
  · have h2 : 0 ≤ j ∧ j < 0 + b.RPM_MAX_INSTANCES := by omega
    rw [if_pos h2, if_pos hj]
    cases init_switch b (m._type j) j <;> rfl
  · have h2 : ¬ (0 ≤ j ∧ j < 0 + b.RPM_MAX_INSTANCES) := by omega
    rw [if_neg h2, if_neg hj]

theorem init_fresh_lt_num_instances (b : Build) (m : AP_RPM)
    (hN : b.RPM_MAX_INSTANCES ≤ 255) (hf : m.fresh) (j : Nat)
    (hsome : (m.init b).drivers j ≠ none) : j < (m.init b).num_instances := by
  have hj : j < b.RPM_MAX_INSTANCES := by
    by_contra hc
    rw [init_fresh_drivers b m hf, if_neg hc] at hsome
    exact hsome rfl
  rw [init_of_num_instances_zero b m hf.1] at hsome ⊢
  exact init_loop_lt_num_instances b _ 0 m (by omega) (by rw [hf.1]) j (by omega)
    (by omega) hsome

theorem init_fresh_num_instances_le (b : Build) (m : AP_RPM)
    (hN : b.RPM_MAX_INSTANCES ≤ 255) (hf : m.fresh) :
    (m.init b).num_instances ≤ b.RPM_MAX_INSTANCES := by
  rw [init_of_num_instances_zero b m hf.1]
  have := (init_loop_num_instances_bounds b b.RPM_MAX_INSTANCES 0 m (by omega)
    (by rw [hf.1])).2
  omega

theorem init_fresh_state_slot (b : Build) (m : AP_RPM) (hf : m.fresh) (j : Nat)
    (d : Backend) (hd : (m.init b).drivers j = some d) : d.state_slot = j ∧ d.inst = j := by
  rw [init_fresh_drivers b m hf] at hd
  split at hd
  · unfold init_switch at hd
    repeat (split at hd; · cases hd; exact ⟨rfl, rfl⟩)
    cases hd
  · cases hd

/-- A loop of `init` whose `switch` matches in no visited slot changes nothing. -/
theorem init_loop_eq_self (b : Build) (k : Nat) (m : AP_RPM)
    (hsw : ∀ j, j < k → init_switch b (m._type j) j = none)
    (hdr : ∀ j, j < k → m.drivers j = none) : init_loop b k 0 m = m := by
  have hd : ∀ j, (init_loop b k 0 m).drivers j = m.drivers j := by
    intro j
    rw [init_loop_drivers]
    split
    · rename_i h
      rw [hsw j (by omega)]
      rfl
    · rfl
  apply AP_RPM.eq_of_fields
  · exact init_loop_toParams b k 0 m
  · exact init_loop_state b k 0 m
  · exact funext hd
  · exact init_loop_num_instances_of_none b k 0 m
      (fun j _ h2 => by rw [hd j]; exact hdr j (by omega))

/-! ## `init`: high-water mark, repetition, backend selection -/

/-- C6: after `init` on a freshly constructed manager, `num_instances` is 0 when no
slot below `RPM_MAX_INSTANCES` got a backend, and otherwise the index of the highest
slot that got one, plus one. When slot 1 is that highest slot and slot 0 got no backend
the mark is 2, and on a two-slot build this mark 2 differs from the number of backends,
which is 1. -/
theorem init_num_instances_high_water_mark (b : Build) (m : AP_RPM)
    (hN : b.RPM_MAX_INSTANCES ≤ 255) (hf : m.fresh) :
    ((∀ j, j < b.RPM_MAX_INSTANCES → (m.init b).drivers j = none) →
      (m.init b).num_instances = 0) ∧
    (∀ k, k < b.RPM_MAX_INSTANCES → (m.init b).drivers k ≠ none →
      (∀ j, k < j → j < b.RPM_MAX_INSTANCES → (m.init b).drivers j = none) →
      (m.init b).num_instances = k + 1) ∧
    (1 < b.RPM_MAX_INSTANCES → (m.init b).drivers 0 = none → (m.init b).drivers 1 ≠ none →
      (∀ j, 1 < j → j < b.RPM_MAX_INSTANCES → (m.init b).drivers j = none) →
      (m.init b).num_instances = 2) ∧
    (b.RPM_MAX_INSTANCES = 2 → (m.init b).drivers 0 = none → (m.init b).drivers 1 ≠ none →
      (m.init b).num_instances = 2 ∧ backend_count b (m.init b) = 1) := by
  have hgen : ∀ k, k < b.RPM_MAX_INSTANCES → (m.init b).drivers k ≠ none →
      (∀ j, k < j → j < b.RPM_MAX_INSTANCES → (m.init b).drivers j = none) →
      (m.init b).num_instances = k + 1 := by
    intro k hk hsome hnone
    rw [init_of_num_instances_zero b m hf.1] at hsome hnone ⊢
    exact init_loop_num_instances_of_highest b _ 0 m (by omega) k (by omega) (by omega)
      hsome (fun j h1 h2 => hnone j h1 (by omega))
  refine ⟨?_, hgen, ?_, ?_⟩
  · intro hnone
    rw [init_of_num_instances_zero b m hf.1] at hnone ⊢
    rw [init_loop_num_instances_of_none b _ 0 m (fun j _ h2 => hnone j (by omega))]
    exact hf.1
  · intro h1 _ hs hnone
    exact hgen 1 h1 hs hnone
  · intro h2 h0 h1
    refine ⟨hgen 1 (by omega) h1 (fun j hj1 hj2 => by omega), ?_⟩
    obtain ⟨d, hd⟩ := Option.ne_none_iff_exists'.mp h1
    unfold backend_count
    rw [h2]
    simp [List.range_succ, List.filter_cons, h0, hd]

/-- Witness for `init_num_instances_high_water_mark`: two slots, slot 0 of type None and
slot 1 of type ESC telemetry; the high-water mark is 2 and one backend exists. -/
theorem init_num_instances_high_water_mark_witness :
    ((manager_of (params_of (fun j => if j = 1 then 5 else 0) (fun _ => -1))).init
        board2).num_instances = 2 ∧
    backend_count board2
      ((manager_of (params_of (fun j => if j = 1 then 5 else 0) (fun _ => -1))).init
        board2) = 1 :=
  (init_num_instances_high_water_mark board2
    (manager_of (params_of (fun j => if j = 1 then 5 else 0) (fun _ => -1)))
    (by decide) ⟨rfl, fun _ => rfl⟩).2.2.2 rfl (by decide) (by decide)

/-- C7 as stated fails: the first `init` runs with both slots of type None and builds no
backend, so `num_instances` stays 0; the type of both slots is then set to ESC
telemetry, and the second `init` builds two backends and raises `num_instances` to 2. -/
theorem init_repeat_after_empty_first_run_constructs :
    (manager_of (params_of (fun _ => 0) (fun _ => -1))).fresh ∧
    (((manager_of (params_of (fun _ => 0) (fun _ => -1))).init board2).set_params
        (params_of (fun _ => 5) (fun _ => -1))).drivers 0 = none ∧
    (((manager_of (params_of (fun _ => 0) (fun _ => -1))).init board2).set_params
        (params_of (fun _ => 5) (fun _ => -1))).num_instances = 0 ∧
    ((((manager_of (params_of (fun _ => 0) (fun _ => -1))).init board2).set_params
        (params_of (fun _ => 5) (fun _ => -1))).init board2).drivers 0 =
      some { kind := .AP_RPM_ESC_Telem, inst := 0, state_slot := 0 } ∧
    ((((manager_of (params_of (fun _ => 0) (fun _ => -1))).init board2).set_params
        (params_of (fun _ => 5) (fun _ => -1))).init board2).num_instances = 2 ∧
    (((manager_of (params_of (fun _ => 0) (fun _ => -1))).init board2).set_params
        (params_of (fun _ => 5) (fun _ => -1))).init board2 ≠
      ((manager_of (params_of (fun _ => 0) (fun _ => -1))).init board2).set_params
        (params_of (fun _ => 5) (fun _ => -1)) := by
  refine ⟨⟨rfl, fun _ => rfl⟩, by decide, by decide, by decide, by decide, ?_⟩
  intro h
  have h2 := congrArg AP_RPM.num_instances h
  revert h2
  decide

/-- C7, amended: after `init` on a freshly constructed manager, a repeated `init` is a
no-op, whatever the parameters then are, provided the first call left `num_instances`
non-zero or the parameters at the repeated call select no backend for any slot; under
unchanged parameters a repeated `init` is always a no-op. -/
theorem init_repeat_noop (b : Build) (m : AP_RPM) (p : Params)
    (hN : b.RPM_MAX_INSTANCES ≤ 255) (hf : m.fresh) :
    (((m.init b).num_instances ≠ 0 ∨
        ∀ j, j < b.RPM_MAX_INSTANCES → init_switch b (p._type j) j = none) →
      ((m.init b).set_params p).init b = (m.init b).set_params p) ∧
    (m.init b).init b = m.init b := by
  have hzero : (m.init b).num_instances = 0 →
      ∀ j, j < b.RPM_MAX_INSTANCES → (m.init b).drivers j = none := by
    intro h0 j _
    by_contra hc
    have := init_fresh_lt_num_instances b m hN hf j hc
    omega
  have hgen : ∀ q : Params, ((m.init b).num_instances ≠ 0 ∨
        ∀ j, j < b.RPM_MAX_INSTANCES → init_switch b (q._type j) j = none) →
      ((m.init b).set_params q).init b = (m.init b).set_params q := by
    intro q h
    by_cases h0 : (m.init b).num_instances = 0
    · rcases h with h | h
      · exact absurd h0 h
      · rw [init_of_num_instances_zero b ((m.init b).set_params q) h0]
        exact init_loop_eq_self b _ _ h (hzero h0)
    · unfold AP_RPM.init
      rw [if_pos (by exact h0)]
  refine ⟨hgen p, ?_⟩
  have hself : (m.init b).set_params m.toParams = m.init b := by
    apply AP_RPM.eq_of_fields
    · exact (init_toParams b m).symm
    · rfl
    · rfl
    · rfl
  have := hgen m.toParams (by
    by_cases h0 : (m.init b).num_instances = 0
    · right
      intro j hj
      have hd := hzero h0 j hj
      rw [init_fresh_drivers b m hf, if_pos hj] at hd
      exact hd
    · exact Or.inl h0)
  rw [hself] at this
  exact this

/-- Witness for `init_repeat_noop`: the first `init` builds an ESC telemetry backend in
slot 0; the types are then changed to harmonic notch, and the repeated `init` changes
nothing. -/
theorem init_repeat_noop_witness :
    (((manager_of (params_of (fun _ => 5) (fun _ => -1))).init board2).set_params
        (params_of (fun _ => 4) (fun _ => -1))).init board2 =
      ((manager_of (params_of (fun _ => 5) (fun _ => -1))).init board2).set_params
        (params_of (fun _ => 4) (fun _ => -1)) :=
  (init_repeat_noop board2 (manager_of (params_of (fun _ => 5) (fun _ => -1)))
    (params_of (fun _ => 4) (fun _ => -1)) (by decide) ⟨rfl, fun _ => rfl⟩).1
    (Or.inl (by decide))

/-- C8: after `init` on a freshly constructed manager, every slot `i` below
`RPM_MAX_INSTANCES` holds the backend selected by `_type[i]`, built with index `i` and
state cell `i`: PWM and PIN give the pin backend except on the simulation target, ESC
telemetry gives the telemetry backend, EFI gives the EFI backend when EFI support is
compiled in, harmonic notch gives the notch backend, the simulation type gives the
simulation backend on the simulation target only, and None or any other value gives no
backend. -/
theorem init_selects_backend (b : Build) (m : AP_RPM) (hs : b.sitl_type_distinct)
    (hf : m.fresh) (i : Nat) (hi : i < b.RPM_MAX_INSTANCES) :
    ((m._type i = RPM_TYPE_PWM ∨ m._type i = RPM_TYPE_PIN) →
      (m.init b).drivers i =
        if b.HAL_BOARD_SITL then none
        else some { kind := .AP_RPM_Pin, inst := i, state_slot := i }) ∧
    (m._type i = RPM_TYPE_ESC_TELEM →
      (m.init b).drivers i = some { kind := .AP_RPM_ESC_Telem, inst := i, state_slot := i }) ∧
    (m._type i = RPM_TYPE_EFI →
      (m.init b).drivers i =
        if b.HAL_EFI_ENABLED then some { kind := .AP_RPM_EFI, inst := i, state_slot := i }
        else none) ∧
    (m._type i = RPM_TYPE_HNTCH →
      (m.init b).drivers i =
        some { kind := .AP_RPM_HarmonicNotch, inst := i, state_slot := i }) ∧
    (m._type i = b.RPM_TYPE_SITL →
      (m.init b).drivers i =
        if b.HAL_BOARD_SITL then some { kind := .AP_RPM_SITL, inst := i, state_slot := i }
        else none) ∧
    (m._type i = RPM_TYPE_NONE → (m.init b).drivers i = none) ∧
    (m._type i ≠ RPM_TYPE_PWM → m._type i ≠ RPM_TYPE_PIN → m._type i ≠ RPM_TYPE_ESC_TELEM →
      m._type i ≠ RPM_TYPE_EFI → m._type i ≠ RPM_TYPE_HNTCH →
      m._type i ≠ b.RPM_TYPE_SITL → (m.init b).drivers i = none) := by
  rw [init_fresh_drivers b m hf, if_pos hi]
  obtain ⟨s0, s1, s2, s3, s4, s5⟩ := hs
  unfold RPM_TYPE_NONE RPM_TYPE_PWM RPM_TYPE_PIN RPM_TYPE_EFI RPM_TYPE_HNTCH
    RPM_TYPE_ESC_TELEM at *
  unfold init_switch RPM_TYPE_PWM RPM_TYPE_PIN RPM_TYPE_EFI RPM_TYPE_HNTCH
    RPM_TYPE_ESC_TELEM
  cases hb : b.HAL_BOARD_SITL <;> cases he : b.HAL_EFI_ENABLED <;>
    refine ⟨?_, ?_, ?_, ?_, ?_, ?_, ?_⟩ <;> intros <;> simp_all
  all_goals first
    | omega
    | (rename_i h; rcases h with h | h <;> rw [h] <;> simp <;> omega)

/-- Witness for `init_selects_backend`: on the two-slot hardware build, slot 1 of type
harmonic notch gets the notch backend bound to index 1. -/
theorem init_selects_backend_witness :
    ((manager_of (params_of (fun j => if j = 1 then 4 else 0) (fun _ => -1))).init
        board2).drivers 1 =
      some { kind := .AP_RPM_HarmonicNotch, inst := 1, state_slot := 1 } :=
  (init_selects_backend board2
    (manager_of (params_of (fun j => if j = 1 then 4 else 0) (fun _ => -1)))
    (by decide) ⟨rfl, fun _ => rfl⟩ 1 (by decide)).2.2.2.1 rfl

/-! ## `update` -/

theorem update_step_toParams (refresh : Backend → AP_RPM → RPM_State) (m : AP_RPM)
    (i : Nat) : (update_step refresh m i).toParams = m.toParams := by
  unfold update_step backend_update
  split
  · split <;> rfl
  · rfl

theorem update_step_drivers (refresh : Backend → AP_RPM → RPM_State) (m : AP_RPM)
    (i : Nat) : (update_step refresh m i).drivers = m.drivers := by
  unfold update_step backend_update
  split
  · split <;> rfl
  · rfl

theorem update_step_num_instances (refresh : Backend → AP_RPM → RPM_State) (m : AP_RPM)
    (i : Nat) : (update_step refresh m i).num_instances = m.num_instances := by
  unfold update_step backend_update
  split
  · split <;> rfl
  · rfl

/-- An iteration for slot `i` whose backend, if any, is bound to state cell `i` leaves
every other state cell alone. -/
theorem update_step_state_of_ne (refresh : Backend → AP_RPM → RPM_State) (m : AP_RPM)
    (i j : Nat) (hbound : ∀ d, m.drivers i = some d → d.state_slot = i) (hj : j ≠ i) :
    (update_step refresh m i).state j = m.state j := by
  unfold update_step backend_update
  split
  · rename_i d hd
    have := hbound d hd
    split <;> simp [store, hj, this]
  · rfl

/-- The iteration for a slot that holds a backend and whose type is None overwrites
`signal_quality` of that slot with 0 and nothing else. -/
theorem update_step_state_of_none_type (refresh : Backend → AP_RPM → RPM_State)
    (m : AP_RPM) (i : Nat) (hd : m.drivers i ≠ none) (ht : m._type i = RPM_TYPE_NONE) :
    (update_step refresh m i).state i =
      { m.state i with signal_quality := FloatVal.zero } := by
  unfold update_step
  split
  · simp [ht, store]
  · rename_i h
    exact absurd h hd

theorem update_loop_toParams (refresh : Backend → AP_RPM → RPM_State) (k i : Nat)
    (m : AP_RPM) : (update_loop refresh k i m).toParams = m.toParams := by
  induction k generalizing i m with
  | zero => rfl
  | succ k ih => rw [update_loop, ih, update_step_toParams]

theorem update_loop_drivers (refresh : Backend → AP_RPM → RPM_State) (k i : Nat)
    (m : AP_RPM) : (update_loop refresh k i m).drivers = m.drivers := by
  induction k generalizing i m with
  | zero => rfl
  | succ k ih => rw [update_loop, ih, update_step_drivers]

theorem update_loop_num_instances (refresh : Backend → AP_RPM → RPM_State) (k i : Nat)
    (m : AP_RPM) : (update_loop refresh k i m).num_instances = m.num_instances := by
  induction k generalizing i m with
  | zero => rfl
  | succ k ih => rw [update_loop, ih, update_step_num_instances]

/-- State cells below the loop counter are not written by the rest of the loop when
every backend is bound to the state cell of its own slot. -/
theorem update_loop_state_of_lt (refresh : Backend → AP_RPM → RPM_State) (k i : Nat)
    (m : AP_RPM) (hbound : ∀ l d, m.drivers l = some d → d.state_slot = l) (j : Nat)
    (hj : j < i) : (update_loop refresh k i m).state j = m.state j := by
  induction k generalizing i m with
  | zero => rfl
  | succ k ih =>
    rw [update_loop, ih (i + 1) (update_step refresh m i)
      (by rw [update_step_drivers]; exact hbound) (by omega)]
    exact update_step_state_of_ne refresh m i j (hbound i) (by omega)

/-- A visited slot that holds a backend and whose type is None ends the loop with its
old record except for `signal_quality`, which is 0. -/
theorem update_loop_state_of_none_type (refresh : Backend → AP_RPM → RPM_State)
    (k i : Nat) (m : AP_RPM) (hbound : ∀ l d, m.drivers l = some d → d.state_slot = l)
    (j : Nat) (h1 : i ≤ j) (h2 : j < i + k) (hd : m.drivers j ≠ none)
    (ht : m._type j = RPM_TYPE_NONE) :
    (update_loop refresh k i m).state j =
      { m.state j with signal_quality := FloatVal.zero } := by
  induction k generalizing i m with
  | zero => omega
  | succ k ih =>
    rw [update_loop]
    by_cases hji : j = i
    · subst hji
      rw [update_loop_state_of_lt refresh k (j + 1) _
        (by rw [update_step_drivers]; exact hbound) j (by omega)]
      exact update_step_state_of_none_type refresh m j hd ht
    · rw [ih (i + 1) (update_step refresh m i)
        (by rw [update_step_drivers]; exact hbound) (by omega) (by omega)
        (by rw [update_step_drivers]; exact hd)
        (by
          have := congrArg Params._type (update_step_toParams refresh m i)
          rw [this]
          exact ht)]
      rw [update_step_state_of_ne refresh m i j (hbound i) hji]

/-- C5: take the manager as `init` left it on a freshly constructed manager, with any
parameters and any state array in force afterwards. If slot `i` got a backend at `init`
and its type is None when `update` is called, then after that one call
`state[i].signal_quality` is 0 and `healthy(i)` is false. -/
theorem update_resets_quality_of_disabled_slot (b : Build) (m0 : AP_RPM)
    (hN : b.RPM_MAX_INSTANCES ≤ 255) (hf : m0.fresh) (p : Params) (st : Nat → RPM_State)
    (refresh : Backend → AP_RPM → RPM_State) (i : Nat)
    (hd : (m0.init b).drivers i ≠ none) (ht : p._type i = RPM_TYPE_NONE) :
    (((((m0.init b).set_params p).set_state st).update refresh).state i).signal_quality =
      FloatVal.zero ∧
    ((((m0.init b).set_params p).set_state st).update refresh).healthy i = false := by
  have hdr : (((m0.init b).set_params p).set_state st).drivers = (m0.init b).drivers := rfl
  have hnum : (((m0.init b).set_params p).set_state st).num_instances =
      (m0.init b).num_instances := rfl
  have hty : (((m0.init b).set_params p).set_state st)._type i = RPM_TYPE_NONE := ht
  have hlt := init_fresh_lt_num_instances b m0 hN hf i hd
  constructor
  · unfold AP_RPM.update
    rw [update_loop_state_of_none_type refresh _ 0 _
      (fun l d h => (init_fresh_state_slot b m0 hf l d (by rw [← hdr]; exact h)).1) i
      (by omega) (by rw [hnum]; omega) (by rw [hdr]; exact hd) hty]
  · unfold AP_RPM.healthy
    have h2 : ((((m0.init b).set_params p).set_state st).update refresh)._type i =
        RPM_TYPE_NONE := by
      unfold AP_RPM.update
      rw [congrArg Params._type (update_loop_toParams refresh _ 0 _)]
      exact hty
    simp [h2]

/-- Witness for `update_resets_quality_of_disabled_slot`: slot 0 is built as ESC
telemetry, then set to None while its quality is 9/10; one `update` brings it to 0. -/
theorem update_resets_quality_of_disabled_slot_witness :
    ((((((manager_of (params_of (fun _ => 5) (fun _ => -1))).init board2).set_params
        (params_of (fun _ => 0) (fun _ => -1))).set_state
        (fun _ => { rate_rpm := FloatVal.finite 4500,
                    signal_quality := FloatVal.finite (9 / 10) })).update
        (fun _ m => m.state 0)).state 0).signal_quality = FloatVal.zero ∧
    (((((manager_of (params_of (fun _ => 5) (fun _ => -1))).init board2).set_params
        (params_of (fun _ => 0) (fun _ => -1))).set_state
        (fun _ => { rate_rpm := FloatVal.finite 4500,
                    signal_quality := FloatVal.finite (9 / 10) })).update
        (fun _ m => m.state 0)).healthy 0 = false :=
  update_resets_quality_of_disabled_slot board2
    (manager_of (params_of (fun _ => 5) (fun _ => -1))) (by decide) ⟨rfl, fun _ => rfl⟩
    (params_of (fun _ => 0) (fun _ => -1))
    (fun _ => { rate_rpm := FloatVal.finite 4500,
                signal_quality := FloatVal.finite (9 / 10) })
    (fun _ m => m.state 0) 0 (by decide) rfl

/-! ## `arming_checks` -/

/-- The loop succeeds exactly when every visited slot of a pin type has a pin that is
set and valid. -/
theorem arming_checks_loop_ret (valid_pin : Int → Bool) (m : AP_RPM) (buflen : Nat)
    (k i : Nat) (c : List Int) :
    (arming_checks_loop valid_pin m buflen k i c).ret = true ↔
      ∀ j, i ≤ j → j < i + k → (m._type j = RPM_TYPE_PWM ∨ m._type j = RPM_TYPE_PIN) →
        m._pin j ≠ -1 ∧ valid_pin (m._pin j) = true := by
  induction k generalizing i c with
  | zero =>
    constructor
    · intro _ j h1 h2
      omega
    · intro _
      rfl
  | succ k ih =>
    rw [arming_checks_loop]
    by_cases ht : m._type i = RPM_TYPE_PWM ∨ m._type i = RPM_TYPE_PIN
    · rw [if_pos ht]
      by_cases hp : m._pin i = -1
      · rw [if_pos hp]
        constructor
        · intro h
          cases h
        · intro h
          exact absurd hp (h i (le_refl _) (by omega) ht).1
      · rw [if_neg hp]
        by_cases hv : valid_pin (m._pin i) = true
        · rw [if_neg (by simp [hv]), ih]
          constructor
          · intro h j h1 h2 htj
            by_cases hji : j = i
            · subst hji
              exact ⟨hp, hv⟩
            · exact h j (by omega) (by omega) htj
          · intro h j h1 h2 htj
            exact h j (by omega) (by omega) htj
        · rw [if_pos (by simpa using hv)]
          constructor
          · intro h
            cases h
          · intro h
            exact absurd (h i (le_refl _) (by omega) ht).2 hv
    · rw [if_neg ht, ih]
      constructor
      · intro h j h1 h2 htj
        by_cases hji : j = i
        · subst hji
          exact absurd htj ht
        · exact h j (by omega) (by omega) htj
      · intro h j h1 h2 htj
        exact h j (by omega) (by omega) htj

/-- A successful loop writes nothing to the buffer. -/
theorem arming_checks_loop_writes_of_ret (valid_pin : Int → Bool) (m : AP_RPM)
    (buflen : Nat) (k i : Nat) (c : List Int)
    (h : (arming_checks_loop valid_pin m buflen k i c).ret = true) :
    (arming_checks_loop valid_pin m buflen k i c).buffer_writes = [] := by
  induction k generalizing i c with
  | zero => rfl
  | succ k ih =>
    rw [arming_checks_loop] at h ⊢
    split
    · rw [if_pos (by assumption)] at h
      split
      · rw [if_pos (by assumption)] at h
        cases h
      · rw [if_neg (by assumption)] at h
        split
        · rw [if_pos (by assumption)] at h
          cases h
        · rw [if_neg (by assumption)] at h
          exact ih _ _ h
    · rw [if_neg (by assumption)] at h
      exact ih _ _ h

/-- C9: for every configuration and every pin-validity predicate, `arming_checks`
returns true exactly when every slot below `RPM_MAX_INSTANCES` whose type is PWM or PIN
has a pin other than -1 that `valid_pin` accepts; when no slot has such a type it
returns true; and when it returns true it has written nothing to the buffer. -/
theorem arming_checks_success_iff (b : Build) (valid_pin : Int → Bool) (m : AP_RPM)
    (buflen : Nat) :
    ((m.arming_checks b valid_pin buflen).ret = true ↔
      ∀ j, j < b.RPM_MAX_INSTANCES →
        (m._type j = RPM_TYPE_PWM ∨ m._type j = RPM_TYPE_PIN) →
        m._pin j ≠ -1 ∧ valid_pin (m._pin j) = true) ∧
    ((∀ j, j < b.RPM_MAX_INSTANCES →
        ¬ (m._type j = RPM_TYPE_PWM ∨ m._type j = RPM_TYPE_PIN)) →
      (m.arming_checks b valid_pin buflen).ret = true) ∧
    ((m.arming_checks b valid_pin buflen).ret = true →
      (m.arming_checks b valid_pin buflen).buffer_writes = []) := by
  have key : (m.arming_checks b valid_pin buflen).ret = true ↔
      ∀ j, j < b.RPM_MAX_INSTANCES →
        (m._type j = RPM_TYPE_PWM ∨ m._type j = RPM_TYPE_PIN) →
        m._pin j ≠ -1 ∧ valid_pin (m._pin j) = true := by
    unfold AP_RPM.arming_checks
    rw [arming_checks_loop_ret]
    constructor
    · intro h j hj
      exact h j (by omega) (by omega)
    · intro h j _ hj
      exact h j (by omega)
  refine ⟨key, ?_, ?_⟩
  · intro h
    exact key.mpr (fun j hj ht => absurd ht (h j hj))
  · intro h
    exact arming_checks_loop_writes_of_ret valid_pin m buflen _ 0 [] h

/-- A failing loop stopped at the first visited slot of a pin type whose pin is unset
or invalid: it wrote the one message for that slot and consulted `valid_pin` for the
set pins of the pin-type slots up to that slot, in order. -/
theorem arming_checks_loop_first_violation (valid_pin : Int → Bool) (m : AP_RPM)
    (buflen : Nat) (k i : Nat) (c : List Int)
    (h : (arming_checks_loop valid_pin m buflen k i c).ret = false) :
    ∃ j, i ≤ j ∧ j < i + k ∧
      (m._type j = RPM_TYPE_PWM ∨ m._type j = RPM_TYPE_PIN) ∧
      (m._pin j = -1 ∨ valid_pin (m._pin j) = false) ∧
      (∀ l, i ≤ l → l < j → (m._type l = RPM_TYPE_PWM ∨ m._type l = RPM_TYPE_PIN) →
        m._pin l ≠ -1 ∧ valid_pin (m._pin l) = true) ∧
      (arming_checks_loop valid_pin m buflen k i c).buffer_writes =
        [if m._pin j = -1 then
            { buflen := buflen, fmt := "RPM[%u] no pin set", args := [(j : Int) + 1] }
          else
            { buflen := buflen, fmt := "RPM[%u] pin %d invalid",
              args := [(j : Int) + 1, m._pin j] }] ∧
      (arming_checks_loop valid_pin m buflen k i c).valid_pin_calls =
        c ++ ((List.range' i (j + 1 - i)).filter (fun l =>
          decide ((m._type l = RPM_TYPE_PWM ∨ m._type l = RPM_TYPE_PIN) ∧
            m._pin l ≠ -1))).map m._pin := by
  induction k generalizing i c with
  | zero => cases h
  | succ k ih =>
    rw [arming_checks_loop] at h ⊢
    have hlen : i + 1 - i = 1 := by omega
    by_cases ht : m._type i = RPM_TYPE_PWM ∨ m._type i = RPM_TYPE_PIN
    · rw [if_pos ht] at h ⊢
      by_cases hp : m._pin i = -1
      · rw [if_pos hp]
        refine ⟨i, le_refl _, by omega, ht, Or.inl hp, fun l h1 h2 => by omega, ?_, ?_⟩
        · rw [if_pos hp]
        · rw [hlen]
          simp [List.range', hp]
      · rw [if_neg hp] at h ⊢
        by_cases hv : valid_pin (m._pin i) = true
        · rw [if_neg (by simp [hv])] at h ⊢
          obtain ⟨j, h1, h2, h3, h4, h5, h6, h7⟩ := ih (i + 1) (c ++ [m._pin i]) h
          refine ⟨j, by omega, by omega, h3, h4, ?_, h6, ?_⟩
          · intro l hl1 hl2 hl3
            by_cases hli : l = i
            · subst hli
              exact ⟨hp, hv⟩
            · exact h5 l (by omega) hl2 hl3
          · rw [h7]
            have hlen2 : j + 1 - i = (j + 1 - (i + 1)) + 1 := by omega
            rw [hlen2, List.range']
            simp [List.filter_cons, ht, hp]
        · have hv2 : valid_pin (m._pin i) = false := by simpa using hv
          rw [if_pos (by simp [hv2])]
          refine ⟨i, le_refl _, by omega, ht, Or.inr hv2, fun l h1 h2 => by omega, ?_, ?_⟩
          · rw [if_neg hp]
          · rw [hlen]
            simp [List.range', List.filter_cons, ht, hp]
    · rw [if_neg ht] at h ⊢
      obtain ⟨j, h1, h2, h3, h4, h5, h6, h7⟩ := ih (i + 1) c h
      refine ⟨j, by omega, by omega, h3, h4, ?_, h6, ?_⟩
      · intro l hl1 hl2 hl3
        by_cases hli : l = i
        · subst hli
          exact absurd hl3 ht
        · exact h5 l (by omega) hl2 hl3
      · rw [h7]
        have hlen2 : j + 1 - i = (j + 1 - (i + 1)) + 1 := by omega
        rw [hlen2, List.range']
        simp [List.filter_cons, ht]

/-- C10: when `arming_checks` fails there is a lowest slot `k` of type PWM or PIN whose
pin is -1 or rejected by `valid_pin`; exactly one message was written, naming `k + 1`:
the "no pin set" message when the pin is -1 and the "pin invalid" message with the pin
number otherwise; and `valid_pin` was consulted only for the set pins of the pin-type
slots up to `k`, in ascending order, so for no slot above `k`. -/
theorem arming_checks_reports_first_violation (b : Build) (valid_pin : Int → Bool)
    (m : AP_RPM) (buflen : Nat)
    (h : (m.arming_checks b valid_pin buflen).ret = false) :
    ∃ k, k < b.RPM_MAX_INSTANCES ∧
      (m._type k = RPM_TYPE_PWM ∨ m._type k = RPM_TYPE_PIN) ∧
      (m._pin k = -1 ∨ valid_pin (m._pin k) = false) ∧
      (∀ l, l < k → (m._type l = RPM_TYPE_PWM ∨ m._type l = RPM_TYPE_PIN) →
        m._pin l ≠ -1 ∧ valid_pin (m._pin l) = true) ∧
      (m.arming_checks b valid_pin buflen).buffer_writes =
        [if m._pin k = -1 then
            { buflen := buflen, fmt := "RPM[%u] no pin set", args := [(k : Int) + 1] }
          else
            { buflen := buflen, fmt := "RPM[%u] pin %d invalid",
              args := [(k : Int) + 1, m._pin k] }] ∧
      (m.arming_checks b valid_pin buflen).valid_pin_calls =
        ((List.range (k + 1)).filter (fun l =>
          decide ((m._type l = RPM_TYPE_PWM ∨ m._type l = RPM_TYPE_PIN) ∧
            m._pin l ≠ -1))).map m._pin := by
  unfold AP_RPM.arming_checks at h ⊢
  obtain ⟨j, _, h2, h3, h4, h5, h6, h7⟩ :=
    arming_checks_loop_first_violation valid_pin m buflen _ 0 [] h
  refine ⟨j, by omega, h3, h4, fun l hl => h5 l (by omega) hl, h6, ?_⟩
  rw [h7, List.range_eq_range']
  simp

/-- Witness for `arming_checks_reports_first_violation`: slot 0 is a PWM slot with the
valid pin 50, slot 1 a PIN slot without a pin; the only message names slot 2 and
`valid_pin` was asked about pin 50 only. -/
theorem arming_checks_reports_first_violation_witness :
    ∃ k, k < board2.RPM_MAX_INSTANCES ∧
      ((manager_of (params_of (fun j => if j = 0 then 1 else 2)
          (fun j => if j = 0 then 50 else -1))).arming_checks board2
            (fun pin => decide (pin = 50)) 32).buffer_writes =
        [{ buflen := 32, fmt := "RPM[%u] no pin set", args := [(k : Int) + 1] }] ∧
      k = 1 ∧
      ((manager_of (params_of (fun j => if j = 0 then 1 else 2)
          (fun j => if j = 0 then 50 else -1))).arming_checks board2
            (fun pin => decide (pin = 50)) 32).valid_pin_calls = [50] := by
  obtain ⟨k, h1, _, _, _, h5, h6⟩ := arming_checks_reports_first_violation board2
    (fun pin => decide (pin = 50))
    (manager_of (params_of (fun j => if j = 0 then 1 else 2)
      (fun j => if j = 0 then 50 else -1))) 32 (by decide)
  have hk : k = 1 := by
    have hb : k < 2 := h1
    have hw : ((manager_of (params_of (fun j => if j = 0 then 1 else 2)
          (fun j => if j = 0 then 50 else -1))).arming_checks board2
            (fun pin => decide (pin = 50)) 32).buffer_writes =
        [{ buflen := 32, fmt := "RPM[%u] no pin set", args := [2] }] := by decide
    rw [hw] at h5
    interval_cases k
    · revert h5
      decide
    · rfl
  subst hk
  exact ⟨1, h1, by decide, rfl, by decide⟩

/-! ## Construction -/

/-- C11: before any construction the accessor `AP::rpm()` returns the absent indicator;
construction with an empty singleton cell does not panic and records the address of the
new manager, which the accessor then returns; construction while the cell holds a
manager ends in the panic "AP_RPM must be singleton" and leaves the recorded instance in
place. -/
theorem construct_singleton (b : Build) (this : Nat) (mem : AP_RPM) :
    AP.rpm singleton_at_start = none ∧
    ((AP_RPM.construct b this mem none).fatal = none ∧
      (AP_RPM.construct b this mem none)._singleton = some this ∧
      AP.rpm (AP_RPM.construct b this mem none)._singleton = some this) ∧
    (∀ other : Nat,
      (AP_RPM.construct b this mem (some other)).fatal = some "AP_RPM must be singleton" ∧
      (AP_RPM.construct b this mem (some other))._singleton = some other ∧
      AP.rpm (AP_RPM.construct b this mem (some other))._singleton = some other) := by
  refine ⟨rfl, ⟨?_, ?_, ?_⟩, fun other => ⟨?_, ?_, ?_⟩⟩ <;>
    simp [AP_RPM.construct, AP.rpm, get_singleton]

/-! ## `update`: backend calls and the state they leave -/

theorem update_loop_add (refresh : Backend → AP_RPM → RPM_State) (a c i : Nat)
    (m : AP_RPM) :
    update_loop refresh (a + c) i m =
      update_loop refresh c (i + a) (update_loop refresh a i m) := by
  induction a generalizing i m with
  | zero => simp [update_loop]
  | succ a ih =>
    have h1 : a + 1 + c = (a + c) + 1 := by omega
    have h2 : i + (a + 1) = (i + 1) + a := by omega
    rw [h1, update_loop, update_loop, ih, h2]

/-- The iteration for a slot whose type is not None and whose backend is bound to the
state cell of that slot leaves in that cell what the backend produced. -/
theorem update_step_state_of_call (refresh : Backend → AP_RPM → RPM_State) (m : AP_RPM)
    (i : Nat) (d : Backend) (hd : m.drivers i = some d) (hs : d.state_slot = i)
    (ht : m._type i ≠ RPM_TYPE_NONE) :
    (update_step refresh m i).state i = refresh d m := by
  unfold update_step backend_update
  rw [hd]
  simp [ht, store, hs]

theorem update_step_state_of_no_backend (refresh : Backend → AP_RPM → RPM_State)
    (m : AP_RPM) (i : Nat) (hd : m.drivers i = none) : update_step refresh m i = m := by
  unfold update_step
  rw [hd]

/-- State cells at or above the end of the loop are not written. -/
theorem update_loop_state_of_ge (refresh : Backend → AP_RPM → RPM_State) (k i : Nat)
    (m : AP_RPM) (hbound : ∀ l d, m.drivers l = some d → d.state_slot = l) (j : Nat)
    (hj : i + k ≤ j) : (update_loop refresh k i m).state j = m.state j := by
  induction k generalizing i m with
  | zero => rfl
  | succ k ih =>
    rw [update_loop, ih (i + 1) (update_step refresh m i)
      (by rw [update_step_drivers]; exact hbound) (by omega)]
    exact update_step_state_of_ne refresh m i j (hbound i) (by omega)

/-- The state cell of a slot without a backend is not written. -/
theorem update_loop_state_of_no_backend (refresh : Backend → AP_RPM → RPM_State)
    (k i : Nat) (m : AP_RPM) (hbound : ∀ l d, m.drivers l = some d → d.state_slot = l)
    (j : Nat) (hd : m.drivers j = none) :
    (update_loop refresh k i m).state j = m.state j := by
  induction k generalizing i m with
  | zero => rfl
  | succ k ih =>
    rw [update_loop, ih (i + 1) (update_step refresh m i)
      (by rw [update_step_drivers]; exact hbound)
      (by rw [update_step_drivers]; exact hd)]
    by_cases hji : j = i
    · subst hji
      rw [update_step_state_of_no_backend refresh m j hd]
    · exact update_step_state_of_ne refresh m i j (hbound i) hji

/-- A visited slot with a backend and a type other than None ends the loop with what
its backend produced when it was called, after the iterations for the lower slots. -/
theorem update_loop_state_of_call (refresh : Backend → AP_RPM → RPM_State) (k i : Nat)
    (m : AP_RPM) (hbound : ∀ l d, m.drivers l = some d → d.state_slot = l) (j : Nat)
    (h1 : i ≤ j) (h2 : j < i + k) (d : Backend) (hd : m.drivers j = some d)
    (ht : m._type j ≠ RPM_TYPE_NONE) :
    (update_loop refresh k i m).state j =
      refresh d (update_loop refresh (j - i) i m) := by
  induction k generalizing i m with
  | zero => omega
  | succ k ih =>
    rw [update_loop]
    by_cases hji : j = i
    · subst hji
      rw [update_loop_state_of_lt refresh k (j + 1) _
        (by rw [update_step_drivers]; exact hbound) j (by omega)]
      rw [Nat.sub_self, update_loop]
      exact update_step_state_of_call refresh m j d hd (hbound j d hd) ht
    · rw [ih (i + 1) (update_step refresh m i)
        (by rw [update_step_drivers]; exact hbound) (by omega) (by omega)
        (by rw [update_step_drivers]; exact hd)
        (by
          rw [congrArg Params._type (update_step_toParams refresh m i)]
          exact ht)]
      have h3 : j - i = (j - (i + 1)) + 1 := by omega
      rw [h3, update_loop]

theorem update_call_update_step (refresh : Backend → AP_RPM → RPM_State) (m : AP_RPM)
    (i : Nat) : update_call (update_step refresh m i) = update_call m := by
  funext j
  unfold update_call
  rw [update_step_drivers, congrArg Params._type (update_step_toParams refresh m i)]

theorem update_step_traced_eq (refresh : Backend → AP_RPM → RPM_State) (m : AP_RPM)
    (tr : List BackendCall) (i : Nat) :
    update_step_traced refresh (m, tr) i =
      (update_step refresh m i, tr ++ (update_call m i).toList) := by
  unfold update_step_traced update_step update_call
  cases hd : m.drivers i with
  | none => simp
  | some d =>
    by_cases ht : m._type i = RPM_TYPE_NONE <;> simp [ht]

/-- The loop with the call log computes the state of the plain loop, and appends the
calls for the visited slots in ascending order. -/
theorem update_loop_traced_eq (refresh : Backend → AP_RPM → RPM_State) (k i : Nat)
    (m : AP_RPM) (tr : List BackendCall) :
    update_loop_traced refresh k i (m, tr) =
      (update_loop refresh k i m, tr ++ (List.range' i k).filterMap (update_call m)) := by
  induction k generalizing i m tr with
  | zero => simp [update_loop_traced, update_loop]
  | succ k ih =>
    rw [update_loop_traced, update_step_traced_eq, ih, update_call_update_step,
      update_loop, List.range']
    cases h : update_call m i <;> simp [List.filterMap_cons, h]

theorem update_toParams (refresh : Backend → AP_RPM → RPM_State) (m : AP_RPM) :
    (m.update refresh).toParams = m.toParams :=
  update_loop_toParams refresh _ 0 m

theorem update_drivers (refresh : Backend → AP_RPM → RPM_State) (m : AP_RPM) :
    (m.update refresh).drivers = m.drivers :=
  update_loop_drivers refresh _ 0 m

theorem update_num_instances (refresh : Backend → AP_RPM → RPM_State) (m : AP_RPM) :
    (m.update refresh).num_instances = m.num_instances :=
  update_loop_num_instances refresh _ 0 m

theorem update_traced_eq (refresh : Backend → AP_RPM → RPM_State) (m : AP_RPM) :
    m.update_traced refresh =
      (m.update refresh, (List.range m.num_instances).filterMap (update_call m)) := by
  unfold AP_RPM.update_traced AP_RPM.update
  rw [update_loop_traced_eq, List.range_eq_range']
  simp

theorem update_call_slots (m : AP_RPM) (l : List Nat) :
    (l.filterMap (update_call m)).map BackendCall.slot =
      l.filter (fun i => decide (m.drivers i ≠ none ∧ m._type i ≠ RPM_TYPE_NONE)) := by
  induction l with
  | nil => rfl
  | cons a l ih =>
    cases hd : m.drivers a with
    | none => simp [List.filterMap_cons, List.filter_cons, update_call, hd, ih]
    | some d =>
      by_cases ht : m._type a = RPM_TYPE_NONE <;>
        simp [List.filterMap_cons, List.filter_cons, update_call, hd, ht, ih]

theorem update_call_backend (m : AP_RPM) (j : Nat) (c : BackendCall)
    (h : update_call m j = some c) : c.slot = j ∧ m.drivers j = some c.backend := by
  unfold update_call at h
  cases hd : m.drivers j with
  | none => simp [hd] at h
  | some d =>
    rw [hd] at h
    by_cases ht : m._type j = RPM_TYPE_NONE
    · simp [ht] at h
    · simp [ht] at h
      subst h
      exact ⟨rfl, rfl⟩

/-- C12: the worked example. On a two-slot build, with slot 0 of type ESC telemetry,
slot 1 of type None and `_quality_min[0]` = 0.5, after `init` on a freshly constructed
manager and one `update` in which the backend of slot 0 writes rate 4500 and quality
0.7: `healthy(0)` is true, `get_rpm(0)` returns true with 4500, `healthy(1)` is false
and `get_rpm(1)` returns false leaving its output alone. -/
theorem worked_example (b : Build) (m0 : AP_RPM) (refresh : Backend → AP_RPM → RPM_State)
    (v : FloatVal) (hN : b.RPM_MAX_INSTANCES = 2) (hf : m0.fresh)
    (h0 : m0._type 0 = RPM_TYPE_ESC_TELEM) (h1 : m0._type 1 = RPM_TYPE_NONE)
    (hq : m0._quality_min 0 = FloatVal.finite (1 / 2))
    (hr : ∀ m, refresh { kind := .AP_RPM_ESC_Telem, inst := 0, state_slot := 0 } m =
      { rate_rpm := FloatVal.finite 4500, signal_quality := FloatVal.finite (7 / 10) }) :
    ((m0.init b).update refresh).healthy 0 = true ∧
    ((m0.init b).update refresh).get_rpm 0 v = (true, FloatVal.finite 4500) ∧
    ((m0.init b).update refresh).healthy 1 = false ∧
    ((m0.init b).update refresh).get_rpm 1 v = (false, v) := by
  have hd : (m0.init b).drivers 0 =
      some { kind := .AP_RPM_ESC_Telem, inst := 0, state_slot := 0 } := by
    rw [init_fresh_drivers b m0 hf, if_pos (by omega), h0]
    simp [init_switch, RPM_TYPE_ESC_TELEM, RPM_TYPE_PWM, RPM_TYPE_PIN]
  have hlt : 0 < (m0.init b).num_instances :=
    init_fresh_lt_num_instances b m0 (by omega) hf 0 (by rw [hd]; simp)
  have hp : ((m0.init b).update refresh).toParams = m0.toParams := by
    rw [update_toParams, init_toParams]
  have hty : ((m0.init b).update refresh)._type = m0._type := congrArg Params._type hp
  have hqm : ((m0.init b).update refresh)._quality_min = m0._quality_min :=
    congrArg Params._quality_min hp
  have hnum := update_num_instances refresh (m0.init b)
  have hst : ((m0.init b).update refresh).state 0 =
      { rate_rpm := FloatVal.finite 4500, signal_quality := FloatVal.finite (7 / 10) } := by
    unfold AP_RPM.update
    rw [update_loop_state_of_call refresh _ 0 _
      (fun l d h => (init_fresh_state_slot b m0 hf l d h).1) 0 (le_refl _) (by omega) _ hd
      (by
        rw [congrArg Params._type (init_toParams b m0), h0]
        decide)]
    exact hr _
  have hh0 : ((m0.init b).update refresh).healthy 0 = true := by
    unfold AP_RPM.healthy
    rw [hty, hqm, hst, hnum, h0, hq]
    have hn : ¬ (0 ≥ (m0.init b).num_instances ∨ RPM_TYPE_ESC_TELEM = RPM_TYPE_NONE) := by
      intro h
      rcases h with h | h
      · omega
      · revert h
        decide
    rw [if_neg hn]
    have hl : FloatVal.lt (FloatVal.finite (7 / 10)) (FloatVal.finite (1 / 2)) = false := by
      simp only [FloatVal.lt]
      norm_num
    rw [hl]
    rfl
  have hh1 : ((m0.init b).update refresh).healthy 1 = false := by
    unfold AP_RPM.healthy
    rw [hty, h1]
    simp
  refine ⟨hh0, ?_, hh1, ?_⟩
  · unfold AP_RPM.get_rpm
    simp [hh0, hst]
  · unfold AP_RPM.get_rpm
    simp [hh1]

/-- Witness for `worked_example`: the two-slot hardware build, default parameters with
types ESC telemetry and None, and a backend that always reports 4500 at quality 0.7. -/
theorem worked_example_witness :
    (((manager_of (params_of (fun j => if j = 0 then 5 else 0) (fun _ => -1))).init
        board2).update (fun _ _ => { rate_rpm := FloatVal.finite 4500,
                                     signal_quality := FloatVal.finite (7 / 10) })).healthy
        0 = true ∧
    (((manager_of (params_of (fun j => if j = 0 then 5 else 0) (fun _ => -1))).init
        board2).update (fun _ _ => { rate_rpm := FloatVal.finite 4500,
                                     signal_quality := FloatVal.finite (7 / 10) })).get_rpm
        0 FloatVal.zero = (true, FloatVal.finite 4500) ∧
    (((manager_of (params_of (fun j => if j = 0 then 5 else 0) (fun _ => -1))).init
        board2).update (fun _ _ => { rate_rpm := FloatVal.finite 4500,
                                     signal_quality := FloatVal.finite (7 / 10) })).healthy
        1 = false ∧
    (((manager_of (params_of (fun j => if j = 0 then 5 else 0) (fun _ => -1))).init
        board2).update (fun _ _ => { rate_rpm := FloatVal.finite 4500,
                                     signal_quality := FloatVal.finite (7 / 10) })).get_rpm
        1 FloatVal.zero = (false, FloatVal.zero) :=
  worked_example board2
    (manager_of (params_of (fun j => if j = 0 then 5 else 0) (fun _ => -1)))
    (fun _ _ => { rate_rpm := FloatVal.finite 4500,
                  signal_quality := FloatVal.finite (7 / 10) })
    FloatVal.zero rfl ⟨rfl, fun _ => rfl⟩ rfl rfl rfl (fun _ => rfl)

/-- C13: one `update` call invokes the backend of exactly the slots below
`num_instances` that hold a backend and whose type is not None, each once and in
ascending slot order, always the backend stored in that slot; it makes no call for any
other slot; and when every backend is bound to the state cell of its own slot, the
state of an invoked slot after `update` is what its backend produced, unaltered. -/
theorem update_invokes_each_enabled_backend_once
    (refresh : Backend → AP_RPM → RPM_State) (m : AP_RPM) :
    (m.update_traced refresh).1 = m.update refresh ∧
    (m.update_traced refresh).2.map BackendCall.slot =
      (List.range m.num_instances).filter
        (fun i => decide (m.drivers i ≠ none ∧ m._type i ≠ RPM_TYPE_NONE)) ∧
    (∀ i, i ∈ (m.update_traced refresh).2.map BackendCall.slot ↔
      i < m.num_instances ∧ m.drivers i ≠ none ∧ m._type i ≠ RPM_TYPE_NONE) ∧
    List.Pairwise (fun x y => x < y) ((m.update_traced refresh).2.map BackendCall.slot) ∧
    ((m.update_traced refresh).2.map BackendCall.slot).Nodup ∧
    (∀ c, c ∈ (m.update_traced refresh).2 → m.drivers c.slot = some c.backend) ∧
    ((∀ l d, m.drivers l = some d → d.state_slot = l) →
      ∀ i d, i < m.num_instances → m.drivers i = some d → m._type i ≠ RPM_TYPE_NONE →
        (m.update refresh).state i = refresh d (update_loop refresh i 0 m)) := by
  have hslots : (m.update_traced refresh).2.map BackendCall.slot =
      (List.range m.num_instances).filter
        (fun i => decide (m.drivers i ≠ none ∧ m._type i ≠ RPM_TYPE_NONE)) := by
    rw [update_traced_eq]
    exact update_call_slots m _
  have hpw : List.Pairwise (fun x y => x < y)
      ((m.update_traced refresh).2.map BackendCall.slot) := by
    rw [hslots]
    exact List.Pairwise.filter _ (List.pairwise_lt_range _)
  refine ⟨by rw [update_traced_eq], hslots, ?_, hpw, ?_, ?_, ?_⟩
  · intro i
    rw [hslots]
    simp [List.mem_filter]
  · exact hpw.imp (fun h => Nat.ne_of_lt h)
  · intro c hc
    rw [update_traced_eq] at hc
    obtain ⟨j, _, hj⟩ := List.mem_filterMap.mp hc
    obtain ⟨h1, h2⟩ := update_call_backend m j c hj
    rw [h1]
    exact h2
  · intro hbound i d hi hd ht
    unfold AP_RPM.update
    have := update_loop_state_of_call refresh m.num_instances 0 m hbound i (by omega)
      (by omega) d hd ht
    simpa using this

/-- C14: `update` changes neither the parameters, nor `num_instances`, nor the backend
of any slot. When every backend is bound to the state cell of its own slot: a slot that
holds a backend and whose type is None keeps its `rate_rpm`, and below `num_instances`
its record is the old one with `signal_quality` 0; the record of a slot without a
backend and of a slot at or above `num_instances` is unchanged; and every other record
is the output of the backend of that slot. -/
theorem update_frame (refresh : Backend → AP_RPM → RPM_State) (m : AP_RPM) :
    (m.update refresh).toParams = m.toParams ∧
    (m.update refresh).num_instances = m.num_instances ∧
    (m.update refresh).drivers = m.drivers ∧
    ((∀ l d, m.drivers l = some d → d.state_slot = l) →
      (∀ i, m.drivers i ≠ none → m._type i = RPM_TYPE_NONE →
        ((m.update refresh).state i).rate_rpm = (m.state i).rate_rpm ∧
        (i < m.num_instances →
          (m.update refresh).state i =
            { m.state i with signal_quality := FloatVal.zero })) ∧
      (∀ i, m.drivers i = none → (m.update refresh).state i = m.state i) ∧
      (∀ i, m.num_instances ≤ i → (m.update refresh).state i = m.state i) ∧
      (∀ i d, i < m.num_instances → m.drivers i = some d → m._type i ≠ RPM_TYPE_NONE →
        (m.update refresh).state i = refresh d (update_loop refresh i 0 m))) := by
  refine ⟨update_toParams refresh m, update_num_instances refresh m,
    update_drivers refresh m, fun hbound => ⟨?_, ?_, ?_, ?_⟩⟩
  · intro i hd ht
    have hlt : i < m.num_instances →
        (m.update refresh).state i =
          { m.state i with signal_quality := FloatVal.zero } := by
      intro hi
      unfold AP_RPM.update
      exact update_loop_state_of_none_type refresh _ 0 m hbound i (by omega) (by omega)
        hd ht
    refine ⟨?_, hlt⟩
    by_cases hi : i < m.num_instances
    · rw [hlt hi]
    · unfold AP_RPM.update
      rw [update_loop_state_of_ge refresh _ 0 m hbound i (by omega)]
  · intro i hd
    unfold AP_RPM.update
    exact update_loop_state_of_no_backend refresh _ 0 m hbound i hd
  · intro i hi
    unfold AP_RPM.update
    exact update_loop_state_of_ge refresh _ 0 m hbound i (by omega)
  · intro i d hi hd ht
    unfold AP_RPM.update
    have := update_loop_state_of_call refresh m.num_instances 0 m hbound i (by omega)
      (by omega) d hd ht
    simpa using this

/-! ## Health after a disable, and what health depends on -/

/-- C15 as stated fails at the floor 0, which lies in [0,1]: slot 0 is built as ESC
telemetry and has quality 9/10; its type is set to None, `update` runs once, and its
type is set back to ESC telemetry. Before any refresh `healthy(0)` is true and
`get_rpm(0)` returns true with the old rate, because the reset quality 0 is not below
the floor 0. -/
theorem healthy_after_reenable_at_zero_floor :
    ((manager_of (params_with_floor (fun _ => 5) (fun _ => -1) (FloatVal.finite 0))).init
        board2).drivers 0 ≠ none ∧
    ((((((manager_of (params_with_floor (fun _ => 5) (fun _ => -1)
        (FloatVal.finite 0))).init board2).set_state
        (fun _ => { rate_rpm := FloatVal.finite 4500,
                    signal_quality := FloatVal.finite (9 / 10) })).set_params
        (params_with_floor (fun j => if j = 0 then 0 else 5) (fun _ => -1)
          (FloatVal.finite 0))).update (fun _ m => m.state 1)).set_params
        (params_with_floor (fun _ => 5) (fun _ => -1) (FloatVal.finite 0))).healthy 0 =
      true ∧
    ((((((manager_of (params_with_floor (fun _ => 5) (fun _ => -1)
        (FloatVal.finite 0))).init board2).set_state
        (fun _ => { rate_rpm := FloatVal.finite 4500,
                    signal_quality := FloatVal.finite (9 / 10) })).set_params
        (params_with_floor (fun j => if j = 0 then 0 else 5) (fun _ => -1)
          (FloatVal.finite 0))).update (fun _ m => m.state 1)).set_params
        (params_with_floor (fun _ => 5) (fun _ => -1) (FloatVal.finite 0))).get_rpm 0
        FloatVal.zero = (true, FloatVal.finite 4500) := by
  refine ⟨by decide, by decide, by decide⟩

/-- C15, amended: take the manager as `init` left it on a freshly constructed manager,
with any state array; let slot `i` hold a backend, let its type be None while `update`
runs once, and let any parameters be in force afterwards. If the floor
`_quality_min[0]` then in force is above 0, `healthy(i)` is false and `get_rpm(i)`
fails, until the backend refreshes the slot; if the floor is not above 0 and the type
is not None, `healthy(i)` is true. -/
theorem healthy_after_reenable (b : Build) (m0 : AP_RPM) (hN : b.RPM_MAX_INSTANCES ≤ 255)
    (hf : m0.fresh) (p1 p2 : Params) (st : Nat → RPM_State)
    (refresh : Backend → AP_RPM → RPM_State) (i : Nat) (v : FloatVal)
    (hd : (m0.init b).drivers i ≠ none) (ht : p1._type i = RPM_TYPE_NONE) :
    (FloatVal.lt FloatVal.zero (p2._quality_min 0) = true →
      (((((m0.init b).set_params p1).set_state st).update refresh).set_params p2).healthy
          i = false ∧
      (((((m0.init b).set_params p1).set_state st).update refresh).set_params p2).get_rpm
          i v = (false, v)) ∧
    (p2._type i ≠ RPM_TYPE_NONE →
      FloatVal.lt FloatVal.zero (p2._quality_min 0) = false →
      (((((m0.init b).set_params p1).set_state st).update refresh).set_params p2).healthy
          i = true) := by
  have hdr : (((m0.init b).set_params p1).set_state st).drivers = (m0.init b).drivers := rfl
  have hnum : (((m0.init b).set_params p1).set_state st).num_instances =
      (m0.init b).num_instances := rfl
  have hlt := init_fresh_lt_num_instances b m0 hN hf i hd
  have hsq : ((((((m0.init b).set_params p1).set_state st).update refresh).set_params
      p2).state i).signal_quality = FloatVal.zero := by
    show (((((m0.init b).set_params p1).set_state st).update refresh).state
      i).signal_quality = FloatVal.zero
    unfold AP_RPM.update
    rw [update_loop_state_of_none_type refresh _ 0 _
      (fun l d h => (init_fresh_state_slot b m0 hf l d (by rw [← hdr]; exact h)).1) i
      (by omega) (by rw [hnum]; omega) (by rw [hdr]; exact hd) ht]
  have hn : (((((m0.init b).set_params p1).set_state st).update refresh).set_params
      p2).num_instances = (m0.init b).num_instances := by
    show ((((m0.init b).set_params p1).set_state st).update refresh).num_instances = _
    rw [update_num_instances]
    exact hnum
  have hq : (((((m0.init b).set_params p1).set_state st).update refresh).set_params
      p2)._quality_min 0 = p2._quality_min 0 := rfl
  have hty : (((((m0.init b).set_params p1).set_state st).update refresh).set_params
      p2)._type i = p2._type i := rfl
  constructor
  · intro hfloor
    have hh : (((((m0.init b).set_params p1).set_state st).update refresh).set_params
        p2).healthy i = false := by
      unfold AP_RPM.healthy
      rw [hsq, hq, hfloor]
      simp
    refine ⟨hh, ?_⟩
    unfold AP_RPM.get_rpm
    simp [hh]
  · intro hne hfloor
    unfold AP_RPM.healthy
    rw [hsq, hq, hfloor, hn, hty]
    have hc : ¬ (i ≥ (m0.init b).num_instances ∨ p2._type i = RPM_TYPE_NONE) := by
      intro h
      rcases h with h | h
      · omega
      · exact hne h
    rw [if_neg hc]
    rfl

/-- Witness for `healthy_after_reenable`: the scenario of
`healthy_after_reenable_at_zero_floor` with the default floor 1/2. -/
theorem healthy_after_reenable_witness :
    ((((((manager_of (params_of (fun _ => 5) (fun _ => -1))).init board2).set_params
        (params_of (fun j => if j = 0 then 0 else 5) (fun _ => -1))).set_state
        (fun _ => { rate_rpm := FloatVal.finite 4500,
                    signal_quality := FloatVal.finite (9 / 10) })).update
        (fun _ m => m.state 1)).set_params
        (params_of (fun _ => 5) (fun _ => -1))).healthy 0 = false ∧
    ((((((manager_of (params_of (fun _ => 5) (fun _ => -1))).init board2).set_params
        (params_of (fun j => if j = 0 then 0 else 5) (fun _ => -1))).set_state
        (fun _ => { rate_rpm := FloatVal.finite 4500,
                    signal_quality := FloatVal.finite (9 / 10) })).update
        (fun _ m => m.state 1)).set_params
        (params_of (fun _ => 5) (fun _ => -1))).get_rpm 0 FloatVal.zero =
      (false, FloatVal.zero) :=
  (healthy_after_reenable board2 (manager_of (params_of (fun _ => 5) (fun _ => -1)))
    (by decide) ⟨rfl, fun _ => rfl⟩
    (params_of (fun j => if j = 0 then 0 else 5) (fun _ => -1))
    (params_of (fun _ => 5) (fun _ => -1))
    (fun _ => { rate_rpm := FloatVal.finite 4500,
                signal_quality := FloatVal.finite (9 / 10) })
    (fun _ m => m.state 1) 0 FloatVal.zero (by decide) rfl).1
    (by simp [FloatVal.lt, FloatVal.zero, params_of])

/-- C16: `enabled`, `healthy` and `get_rpm` give the same results in two manager states
that differ only in the backends their slots hold. And `init` reaches a state in which
slot 0 is below the high-water mark, holds no backend, and is enabled and healthy: on
the two-slot build without EFI support, slot 0 of type EFI, slot 1 of type ESC
telemetry and the floor 0. -/
theorem health_ignores_backend_existence :
    (∀ (m : AP_RPM) (drv : Nat → Option Backend) (i : Nat) (v : FloatVal),
      ({ m with drivers := drv } : AP_RPM).enabled i = m.enabled i ∧
      ({ m with drivers := drv } : AP_RPM).healthy i = m.healthy i ∧
      ({ m with drivers := drv } : AP_RPM).get_rpm i v = m.get_rpm i v) ∧
    ((manager_of (params_with_floor (fun j => if j = 0 then 3 else 5) (fun _ => -1)
        (FloatVal.finite 0))).fresh ∧
      0 < ((manager_of (params_with_floor (fun j => if j = 0 then 3 else 5) (fun _ => -1)
        (FloatVal.finite 0))).init board2).num_instances ∧
      ((manager_of (params_with_floor (fun j => if j = 0 then 3 else 5) (fun _ => -1)
        (FloatVal.finite 0))).init board2).drivers 0 = none ∧
      ((manager_of (params_with_floor (fun j => if j = 0 then 3 else 5) (fun _ => -1)
        (FloatVal.finite 0))).init board2).drivers 1 ≠ none ∧
      ((manager_of (params_with_floor (fun j => if j = 0 then 3 else 5) (fun _ => -1)
        (FloatVal.finite 0))).init board2).enabled 0 = true ∧
      ((manager_of (params_with_floor (fun j => if j = 0 then 3 else 5) (fun _ => -1)
        (FloatVal.finite 0))).init board2).healthy 0 = true) := by
  refine ⟨fun m drv i v => ⟨rfl, rfl, rfl⟩,
    ⟨rfl, fun _ => rfl⟩, by decide, by decide, by decide, by decide, by decide⟩

/-- C18: the floor is the single value `_quality_min[0]`: for an enabled instance
`healthy(i)` is the negation of `signal_quality < _quality_min[0]`, so two enabled
instances with equal quality are equally healthy; and `healthy(i)` is unchanged by any
change of the scaling, maximum, minimum, pin and esc_mask parameters, and of the
`_quality_min` entries other than entry 0. -/
theorem quality_floor_is_global (m : AP_RPM) :
    (∀ i, m.enabled i = true →
      m.healthy i = !FloatVal.lt (m.state i).signal_quality (m._quality_min 0)) ∧
    (∀ i j, m.enabled i = true → m.enabled j = true →
      (m.state i).signal_quality = (m.state j).signal_quality →
      m.healthy i = m.healthy j) ∧
    (∀ (sc mx mn : Nat → FloatVal) (pin esc : Nat → Int) (i : Nat),
      ({ m with _scaling := sc, _maximum := mx, _minimum := mn, _pin := pin,
                _esc_mask := esc } : AP_RPM).healthy i = m.healthy i) ∧
    (∀ (qm : Nat → FloatVal) (i : Nat), qm 0 = m._quality_min 0 →
      ({ m with _quality_min := qm } : AP_RPM).healthy i = m.healthy i) := by
  have key : ∀ i, m.enabled i = true →
      m.healthy i = !FloatVal.lt (m.state i).signal_quality (m._quality_min 0) := by
    intro i he
    unfold AP_RPM.enabled at he
    unfold AP_RPM.healthy
    by_cases h1 : i ≥ m.num_instances
    · simp [h1] at he
    · by_cases h2 : m._type i = RPM_TYPE_NONE
      · simp [h1, h2] at he
      · cases h3 : FloatVal.lt (m.state i).signal_quality (m._quality_min 0) <;>
          simp [h1, h2, h3]
  refine ⟨key, ?_, fun sc mx mn pin esc i => rfl, ?_⟩
  · intro i j hi hj hq
    rw [key i hi, key j hj, hq]
  · intro qm i hq
    unfold AP_RPM.healthy
    simp only [hq]

/-! ## The invariant along sequences of operations -/

/-- The high-water mark after the loop of `init` is the old one, or one more than the
index of a visited slot that holds a backend. -/
theorem init_loop_num_instances_cases (b : Build) (k i : Nat) (m : AP_RPM)
    (hk : i + k ≤ 255) :
    (init_loop b k i m).num_instances = m.num_instances ∨
    ∃ j, i ≤ j ∧ j < i + k ∧ (init_loop b k i m).drivers j ≠ none ∧
      (init_loop b k i m).num_instances = j + 1 := by
  induction k generalizing i m with
  | zero => exact Or.inl rfl
  | succ k ih =>
    rw [init_loop]
    rcases ih (i + 1) (init_step b m i) (by omega) with h | ⟨j, h1, h2, h3, h4⟩
    · have hs := init_step_num_instances b m i
      by_cases hd : (init_step b m i).drivers i ≠ none
      · right
        refine ⟨i, le_refl _, by omega, ?_, ?_⟩
        · rw [init_loop_drivers]
          have h3 : ¬ (i + 1 ≤ i ∧ i < i + 1 + k) := by omega
          rw [if_neg h3]
          exact hd
        · rw [h, hs, if_pos hd]
          omega
      · left
        rw [h, hs, if_neg hd]
    · exact Or.inr ⟨j, by omega, by omega, h3, h4⟩

theorem inv_of_fresh (b : Build) (m : AP_RPM) (hf : m.fresh) : m.inv b := by
  obtain ⟨h0, hd⟩ := hf
  refine ⟨by omega, fun j _ => hd j, fun h => by omega, fun j d h => ?_⟩
  rw [hd j] at h
  cases h

theorem fresh_of_inv (b : Build) (m : AP_RPM) (hi : m.inv b) (h0 : m.num_instances = 0) :
    m.fresh :=
  ⟨h0, fun j => hi.2.1 j (by omega)⟩

theorem init_inv (b : Build) (hN : b.RPM_MAX_INSTANCES ≤ 255) (m : AP_RPM)
    (hi : m.inv b) : (m.init b).inv b := by
  by_cases h0 : m.num_instances = 0
  · have hf := fresh_of_inv b m hi h0
    refine ⟨init_fresh_num_instances_le b m hN hf, ?_, ?_,
      fun j d h => init_fresh_state_slot b m hf j d h⟩
    · intro j hj
      by_contra hc
      have := init_fresh_lt_num_instances b m hN hf j hc
      omega
    · intro hpos
      rw [init_of_num_instances_zero b m h0] at hpos ⊢
      rcases init_loop_num_instances_cases b b.RPM_MAX_INSTANCES 0 m (by omega) with
        h | ⟨j, _, _, h3, h4⟩
      · omega
      · rw [h4]
        exact h3
  · unfold AP_RPM.init
    rw [if_pos h0]
    exact hi

theorem update_inv (b : Build) (refresh : Backend → AP_RPM → RPM_State) (m : AP_RPM)
    (hi : m.inv b) : (m.update refresh).inv b := by
  unfold AP_RPM.inv
  rw [update_num_instances, update_drivers]
  exact hi

theorem step_inv (b : Build) (hN : b.RPM_MAX_INSTANCES ≤ 255) (m : AP_RPM) (hi : m.inv b)
    (op : Op) : (m.step b op).inv b := by
  cases op with
  | init => exact init_inv b hN m hi
  | update refresh => exact update_inv b refresh m hi
  | enabled i => exact hi
  | healthy i => exact hi
  | get_rpm i v => exact hi
  | arming_checks vp n => exact hi
  | set_params p => exact hi

theorem run_inv (b : Build) (hN : b.RPM_MAX_INSTANCES ≤ 255) (m : AP_RPM) (hi : m.inv b)
    (ops : List Op) : (m.run b ops).inv b := by
  induction ops generalizing m with
  | nil => exact hi
  | cons op ops ih => exact ih (m.step b op) (step_inv b hN m hi op)

theorem run_append (b : Build) (m : AP_RPM) (ops more : List Op) :
    m.run b (ops ++ more) = (m.run b ops).run b more := by
  unfold AP_RPM.run
  rw [List.foldl_append]

/-- Under the invariant no operation changes a backend that a slot holds. -/
theorem step_drivers_of_some (b : Build) (m : AP_RPM) (hi : m.inv b) (op : Op) (i : Nat)
    (d : Backend) (hd : m.drivers i = some d) : (m.step b op).drivers i = some d := by
  cases op with
  | init =>
    show (m.init b).drivers i = some d
    have h0 : m.num_instances ≠ 0 := by
      intro h0
      rw [hi.2.1 i (by omega)] at hd
      cases hd
    unfold AP_RPM.init
    rw [if_pos h0]
    exact hd
  | update refresh =>
    show (m.update refresh).drivers i = some d
    rw [update_drivers]
    exact hd
  | enabled j => exact hd
  | healthy j => exact hd
  | get_rpm j v => exact hd
  | arming_checks vp n => exact hd
  | set_params p => exact hd

theorem run_drivers_of_some (b : Build) (hN : b.RPM_MAX_INSTANCES ≤ 255) (m : AP_RPM)
    (hi : m.inv b) (ops : List Op) (i : Nat) (d : Backend) (hd : m.drivers i = some d) :
    (m.run b ops).drivers i = some d := by
  induction ops generalizing m with
  | nil => exact hd
  | cons op ops ih =>
    exact ih (m.step b op) (step_inv b hN m hi op) (step_drivers_of_some b m hi op i d hd)

/-! ## Checked array accesses -/

theorem read_of_lt {α : Type} (n : Nat) (a : Nat → α) (i : Nat) (h : i < n) :
    read n a i = some (a i) := by
  unfold read
  rw [if_pos h]

theorem enabled_checked_eq (b : Build) (m : AP_RPM)
    (h : m.num_instances ≤ b.RPM_MAX_INSTANCES) (i : Nat) :
    m.enabled_checked b i = some (m.enabled i) := by
  unfold AP_RPM.enabled_checked AP_RPM.enabled
  by_cases h1 : i ≥ m.num_instances
  · simp [h1]
  · rw [if_neg h1, if_neg h1, read_of_lt _ _ _ (by omega)]
    by_cases h2 : m._type i = RPM_TYPE_NONE <;> simp [h2]

theorem healthy_checked_eq (b : Build) (m : AP_RPM)
    (h : m.num_instances ≤ b.RPM_MAX_INSTANCES) (i : Nat) :
    m.healthy_checked b i = some (m.healthy i) := by
  unfold AP_RPM.healthy_checked AP_RPM.healthy
  by_cases h1 : i ≥ m.num_instances
  · simp [h1]
  · rw [if_neg h1, read_of_lt _ _ _ (by omega : i < b.RPM_MAX_INSTANCES),
      read_of_lt _ _ _ (by omega : i < b.RPM_MAX_INSTANCES),
      read_of_lt _ _ _ (by omega : 0 < b.RPM_MAX_INSTANCES)]
    by_cases h2 : m._type i = RPM_TYPE_NONE
    · simp [h2]
    · cases h3 : FloatVal.lt (m.state i).signal_quality (m._quality_min 0) <;>
        simp [h1, h2, h3]

theorem get_rpm_checked_eq (b : Build) (m : AP_RPM)
    (h : m.num_instances ≤ b.RPM_MAX_INSTANCES) (i : Nat) (v : FloatVal) :
    m.get_rpm_checked b i v = some (m.get_rpm i v) := by
  unfold AP_RPM.get_rpm_checked AP_RPM.get_rpm
  rw [healthy_checked_eq b m h i]
  cases hh : m.healthy i
  · simp
  · have hlt : i < m.num_instances := by
      by_contra hc
      unfold AP_RPM.healthy at hh
      simp [show i ≥ m.num_instances by omega] at hh
    simp [read_of_lt _ _ _ (show i < b.RPM_MAX_INSTANCES by omega)]

theorem update_step_checked_eq (b : Build) (refresh : Backend → AP_RPM → RPM_State)
    (m : AP_RPM) (i : Nat) (h : i < b.RPM_MAX_INSTANCES) :
    update_step_checked b refresh m i = some (update_step refresh m i) := by
  unfold update_step_checked update_step
  rw [read_of_lt _ _ _ h, read_of_lt _ _ _ h, read_of_lt _ _ _ h]
  cases hd : m.drivers i with
  | none => simp
  | some d =>
    by_cases ht : m._type i = RPM_TYPE_NONE <;> simp [ht]

theorem update_loop_checked_eq (b : Build) (refresh : Backend → AP_RPM → RPM_State)
    (k i : Nat) (m : AP_RPM) (h : i + k ≤ b.RPM_MAX_INSTANCES) :
    update_loop_checked b refresh k i m = some (update_loop refresh k i m) := by
  induction k generalizing i m with
  | zero => rfl
  | succ k ih =>
    rw [update_loop_checked, update_step_checked_eq b refresh m i (by omega), update_loop]
    exact ih (i + 1) _ (by omega)

/-! ## Indices stay in range -/

/-- C19: in every state reached from a freshly constructed manager by a sequence of
`init`, `update`, the queries and parameter changes, `num_instances` is at most
`RPM_MAX_INSTANCES`, no slot at or above `num_instances` holds a backend, and the slot
`num_instances - 1` holds one when `num_instances` is positive; and in such a state,
for every index, `enabled`, `healthy`, `get_rpm` and `update` with every array access
range-checked return the results of the unchecked functions, so no access is out of
range. -/
theorem bounds_invariant_and_index_safety (b : Build)
    (hN : b.RPM_MAX_INSTANCES ≤ 255) (m0 : AP_RPM) (hf : m0.fresh) (ops : List Op) :
    (m0.run b ops).num_instances ≤ b.RPM_MAX_INSTANCES ∧
    (∀ j, (m0.run b ops).num_instances ≤ j → (m0.run b ops).drivers j = none) ∧
    (0 < (m0.run b ops).num_instances →
      (m0.run b ops).drivers ((m0.run b ops).num_instances - 1) ≠ none) ∧
    (∀ (i : Nat) (v : FloatVal) (refresh : Backend → AP_RPM → RPM_State),
      (m0.run b ops).enabled_checked b i = some ((m0.run b ops).enabled i) ∧
      (m0.run b ops).healthy_checked b i = some ((m0.run b ops).healthy i) ∧
      (m0.run b ops).get_rpm_checked b i v = some ((m0.run b ops).get_rpm i v) ∧
      (m0.run b ops).update_checked b refresh =
        some ((m0.run b ops).update refresh)) := by
  have hi : (m0.run b ops).inv b := run_inv b hN m0 (inv_of_fresh b m0 hf) ops
  refine ⟨hi.1, hi.2.1, hi.2.2.1, fun i v refresh => ⟨enabled_checked_eq b _ hi.1 i,
    healthy_checked_eq b _ hi.1 i, get_rpm_checked_eq b _ hi.1 i v, ?_⟩⟩
  unfold AP_RPM.update_checked AP_RPM.update
  exact update_loop_checked_eq b refresh _ 0 _ (by have := hi.1; omega)

/-- Witness for `bounds_invariant_and_index_safety`: after `init`, a parameter change
and `update` on the two-slot build the high-water mark is within the bound and the
checked `healthy` at index 1 has a result. -/
theorem bounds_invariant_and_index_safety_witness :
    ((manager_of (params_of (fun _ => 5) (fun _ => -1))).run board2
        [Op.init, Op.set_params (params_of (fun _ => 4) (fun _ => 50)),
          Op.update (fun _ m => m.state 0)]).num_instances ≤ board2.RPM_MAX_INSTANCES ∧
    ((manager_of (params_of (fun _ => 5) (fun _ => -1))).run board2
        [Op.init, Op.set_params (params_of (fun _ => 4) (fun _ => 50)),
          Op.update (fun _ m => m.state 0)]).healthy_checked board2 1 =
      some (((manager_of (params_of (fun _ => 5) (fun _ => -1))).run board2
        [Op.init, Op.set_params (params_of (fun _ => 4) (fun _ => 50)),
          Op.update (fun _ m => m.state 0)]).healthy 1) :=
  ⟨(bounds_invariant_and_index_safety board2 (by decide)
      (manager_of (params_of (fun _ => 5) (fun _ => -1))) ⟨rfl, fun _ => rfl⟩
      [Op.init, Op.set_params (params_of (fun _ => 4) (fun _ => 50)),
        Op.update (fun _ m => m.state 0)]).1,
   ((bounds_invariant_and_index_safety board2 (by decide)
      (manager_of (params_of (fun _ => 5) (fun _ => -1))) ⟨rfl, fun _ => rfl⟩
      [Op.init, Op.set_params (params_of (fun _ => 4) (fun _ => 50)),
        Op.update (fun _ m => m.state 0)]).2.2.2 1 FloatVal.zero
      (fun _ m => m.state 0)).2.1⟩

/-! ## Backends are constructed once and kept -/

theorem init_step_traced_eq (b : Build) (m : AP_RPM) (tr : List Nat) (i : Nat) :
    init_step_traced b (m, tr) i =
      (init_step b m i,
        tr ++ if (init_switch b (m._type i) i).isSome then [i] else []) := by
  unfold init_step_traced init_step
  cases h : init_switch b (m._type i) i with
  | none =>
    simp only [Option.isSome_none, Bool.false_eq_true, if_false, List.append_nil]
    split <;> rfl
  | some d =>
    simp only [Option.isSome_some, if_true]
    split <;> rfl

/-- The loop with the log computes the state of the plain loop, and logs the visited
slots whose `switch` matches, in ascending order. -/
theorem init_loop_traced_eq (b : Build) (k i : Nat) (m : AP_RPM) (tr : List Nat) :
    init_loop_traced b k i (m, tr) =
      (init_loop b k i m,
        tr ++ (List.range' i k).filter
          (fun j => (init_switch b (m._type j) j).isSome)) := by
  induction k generalizing i m tr with
  | zero => simp [init_loop_traced, init_loop]
  | succ k ih =>
    rw [init_loop_traced, init_step_traced_eq, ih, init_loop, List.range',
      congrArg Params._type (init_step_toParams b m i)]
    cases h : (init_switch b (m._type i) i).isSome <;> simp [List.filter_cons, h]

theorem init_traced_eq (b : Build) (m : AP_RPM) :
    m.init_traced b =
      (m.init b,
        if m.num_instances ≠ 0 then []
        else (List.range b.RPM_MAX_INSTANCES).filter
          (fun j => (init_switch b (m._type j) j).isSome)) := by
  unfold AP_RPM.init_traced AP_RPM.init
  by_cases h0 : m.num_instances ≠ 0
  · rw [if_pos h0, if_pos h0, if_pos h0]
  · rw [if_neg h0, if_neg h0, if_neg h0, init_loop_traced_eq, List.range_eq_range']
    simp

/-- Under the invariant one operation constructs a backend at most once per slot, only
for slots that hold none, and every such slot holds a backend afterwards. -/
theorem step_constructs_spec (b : Build) (m : AP_RPM) (hi : m.inv b) (op : Op) :
    (m.step_constructs b op).Nodup ∧
    ∀ i, i ∈ m.step_constructs b op →
      m.drivers i = none ∧ (m.step b op).drivers i ≠ none := by
  cases op with
  | init =>
    show ((m.init_traced b).2).Nodup ∧ ∀ i, i ∈ (m.init_traced b).2 →
      m.drivers i = none ∧ (m.init b).drivers i ≠ none
    rw [init_traced_eq]
    by_cases h0 : m.num_instances ≠ 0
    · simp [h0]
    · simp only [if_neg h0]
      have h0 : m.num_instances = 0 := by omega
      have hf := fresh_of_inv b m hi h0
      refine ⟨List.Nodup.filter _ (List.nodup_range _), ?_⟩
      intro i hmem
      obtain ⟨hr, hs⟩ := List.mem_filter.mp hmem
      refine ⟨hf.2 i, ?_⟩
      rw [init_fresh_drivers b m hf, if_pos (List.mem_range.mp hr)]
      intro hc
      rw [hc] at hs
      cases hs
  | update refresh => exact ⟨List.nodup_nil, fun i h => by cases h⟩
  | enabled j => exact ⟨List.nodup_nil, fun i h => by cases h⟩
  | healthy j => exact ⟨List.nodup_nil, fun i h => by cases h⟩
  | get_rpm j v => exact ⟨List.nodup_nil, fun i h => by cases h⟩
  | arming_checks vp n => exact ⟨List.nodup_nil, fun i h => by cases h⟩
  | set_params p => exact ⟨List.nodup_nil, fun i h => by cases h⟩

/-- Under the invariant a sequence of operations constructs a backend at most once per
slot, and only for slots that hold none at its start. -/
theorem run_constructs_spec (b : Build) (hN : b.RPM_MAX_INSTANCES ≤ 255) (m : AP_RPM)
    (hi : m.inv b) (ops : List Op) :
    (AP_RPM.run_constructs b m ops).Nodup ∧
    ∀ i, i ∈ AP_RPM.run_constructs b m ops → m.drivers i = none := by
  induction ops generalizing m with
  | nil => exact ⟨List.nodup_nil, fun i h => by cases h⟩
  | cons op ops ih =>
    obtain ⟨h1, h2⟩ := step_constructs_spec b m hi op
    obtain ⟨h3, h4⟩ := ih (m.step b op) (step_inv b hN m hi op)
    have hkeep : ∀ i, (m.step b op).drivers i = none → m.drivers i = none := by
      intro i hn
      cases hd : m.drivers i with
      | none => rfl
      | some d =>
        rw [step_drivers_of_some b m hi op i d hd] at hn
        cases hn
    rw [AP_RPM.run_constructs]
    refine ⟨List.Nodup.append h1 h3 ?_, ?_⟩
    · intro i hi1 hi2
      exact (h2 i hi1).2 (h4 i hi2)
    · intro i hmem
      rcases List.mem_append.mp hmem with h | h
      · exact (h2 i h).1
      · exact hkeep i (h4 i h)

/-- C17: in every state reached from a freshly constructed manager by a sequence of
`init`, `update`, the queries and parameter changes, a slot that holds a backend holds
the same backend after any further operation and after any further sequence of
operations; a further `init` constructs backends only for slots that hold none; over
the whole sequence no slot has a backend constructed twice; and after any parameter
change that leaves the type of a slot with a backend different from None, `update`
invokes that same backend. -/
theorem backends_never_replaced (b : Build) (hN : b.RPM_MAX_INSTANCES ≤ 255)
    (m0 : AP_RPM) (hf : m0.fresh) (ops : List Op) :
    (∀ (op : Op) (i : Nat) (d : Backend), (m0.run b ops).drivers i = some d →
      ((m0.run b ops).step b op).drivers i = some d) ∧
    (∀ (more : List Op) (i : Nat) (d : Backend), (m0.run b ops).drivers i = some d →
      (m0.run b (ops ++ more)).drivers i = some d) ∧
    ((m0.run b ops).init_traced b).1 = (m0.run b ops).init b ∧
    (∀ i, i ∈ ((m0.run b ops).init_traced b).2 → (m0.run b ops).drivers i = none) ∧
    (AP_RPM.run_constructs b m0 ops).Nodup ∧
    (∀ (p : Params) (refresh : Backend → AP_RPM → RPM_State) (i : Nat) (d : Backend),
      (m0.run b ops).drivers i = some d → p._type i ≠ RPM_TYPE_NONE →
      ({ slot := i, backend := d } : BackendCall) ∈
        (((m0.run b ops).set_params p).update_traced refresh).2) := by
  have hi0 : m0.inv b := inv_of_fresh b m0 hf
  have hi : (m0.run b ops).inv b := run_inv b hN m0 hi0 ops
  refine ⟨fun op i d hd => step_drivers_of_some b _ hi op i d hd, ?_, ?_, ?_,
    (run_constructs_spec b hN m0 hi0 ops).1, ?_⟩
  · intro more i d hd
    rw [run_append]
    exact run_drivers_of_some b hN _ hi more i d hd
  · rw [init_traced_eq]
  · intro i hmem
    exact ((step_constructs_spec b _ hi Op.init).2 i hmem).1
  · intro p refresh i d hd ht
    have hlt : i < (m0.run b ops).num_instances := by
      by_contra hc
      rw [hi.2.1 i (by omega)] at hd
      cases hd
    rw [update_traced_eq]
    apply List.mem_filterMap.mpr
    refine ⟨i, List.mem_range.mpr hlt, ?_⟩
    unfold update_call
    have hd2 : ((m0.run b ops).set_params p).drivers i = some d := hd
    have ht2 : ((m0.run b ops).set_params p)._type i ≠ RPM_TYPE_NONE := ht
    rw [hd2]
    simp [ht2]

/-- Witness for `backends_never_replaced`: slot 0 is built as ESC telemetry, the types
are then changed to harmonic notch, and `update` invokes the ESC telemetry backend. -/
theorem backends_never_replaced_witness :
    ({ slot := 0,
       backend := { kind := .AP_RPM_ESC_Telem, inst := 0, state_slot := 0 } } :
        BackendCall) ∈
      ((((manager_of (params_of (fun _ => 5) (fun _ => -1))).run board2
          [Op.init, Op.update (fun _ m => m.state 0)]).set_params
          (params_of (fun _ => 4) (fun _ => -1))).update_traced
          (fun _ m => m.state 0)).2 :=
  (backends_never_replaced board2 (by decide)
    (manager_of (params_of (fun _ => 5) (fun _ => -1))) ⟨rfl, fun _ => rfl⟩
    [Op.init, Op.update (fun _ m => m.state 0)]).2.2.2.2.2
    (params_of (fun _ => 4) (fun _ => -1)) (fun _ m => m.state 0) 0
    { kind := .AP_RPM_ESC_Telem, inst := 0, state_slot := 0 } (by decide) (by decide)

end RPM
